import Mathlib

attribute [local semireducible] Rat.ofScientific Rat.mul Rat.inv Rat.add Rat.sub

set_option maxRecDepth 16000

/-!
Verification of the ANPR plate-recognition pipeline.

This file gives a shallow embedding of the plate-recognition code:
the plate-text normalizers (`format_uk_plate` in two variants,
`clean_and_format_plate` in two variants), the geometric candidate
detectors, the plate extractor, the OCR aggregation loops, the
issuing-region identifier, and the orchestrating `process_image`.

External capabilities (OpenCV image transforms, Tesseract OCR) are
modelled as an explicit environment `CVEnv` of oracle functions, while
every piece of logic belonging to the repository itself (filters,
folds, thresholds, string handling) is translated directly.  Python
floats are modelled as rationals, `str` methods on the ASCII range,
and fallible calls (`cv2.imread` returning `None`, the `try/except`
in `extract_plate`) as `Option`.
-/

/-! ### Characters and Python string helpers (ASCII range) -/

/-- `[A-Z]` as used by the `re` patterns in the source. -/
def charUpper (c : Char) : Bool := 65 ≤ c.toNat && c.toNat ≤ 90

/-- `[a-z]`. -/
def charLower (c : Char) : Bool := 97 ≤ c.toNat && c.toNat ≤ 122

/-- `\d` = `[0-9]` as used by the `re` patterns in the source. -/
def charDigit (c : Char) : Bool := 48 ≤ c.toNat && c.toNat ≤ 57

/-- Python `str.isalnum` restricted to the ASCII range the plates use. -/
def pyIsAlnum (c : Char) : Bool := charUpper c || charLower c || charDigit c

/-- Python `str.upper`, character-wise, on the ASCII range. -/
def pyToUpper (c : Char) : Char :=
  if charLower c then Char.ofNat (c.toNat - 32) else c

/-- `''.join(c for c in text if c.isalnum()).upper()` — the cleaning step
shared by every normalizer variant in the source. -/
def cleanAlnumUpper (l : List Char) : List Char :=
  (l.filter pyIsAlnum).map pyToUpper

/-- Python `str.strip()`: drop whitespace from both ends. -/
def pyStrip (s : String) : String :=
  String.mk (((s.data.dropWhile Char.isWhitespace).reverse.dropWhile
    Char.isWhitespace).reverse)

/-- `clean_text.replace('O', '0')` (uk_plate_recognizer.py line 475). -/
def replO (c : Char) : Char := if c = 'O' then '0' else c

/-- `clean_text.replace('I', '1')` (uk_plate_recognizer.py line 476). -/
def replI (c : Char) : Char := if c = 'I' then '1' else c

/-- The full cleaning of `UKPlateRecognizer.format_uk_plate`: strip
non-alphanumerics, uppercase, then the two OCR-confusion replacements. -/
def ukCleanL (l : List Char) : List Char :=
  ((cleanAlnumUpper l).map replO).map replI

/-! ### The UK plate pattern `^[A-Z]{2}\d{2}[A-Z]{3}$` and window scan -/

/-- `re.match(r'^[A-Z]{2}\d{2}[A-Z]{3}$', candidate)` on a 7-character
candidate: two letters, two digits, three letters. -/
def isPlateWindow : List Char → Bool
  | [a, b, c, d, e, f, g] =>
    charUpper a && charUpper b && charDigit c && charDigit d &&
    charUpper e && charUpper f && charUpper g
  | _ => false

/-- `for i in range(len(clean_text) - 6): candidate = clean_text[i:i+7]; if
re.match(...): return ...` — scan every length-7 window left to right and
return the first one matching the plate pattern. -/
def findPlateWindow : List Char → Option (List Char)
  | [] => none
  | c :: rest =>
    if isPlateWindow ((c :: rest).take 7) then some ((c :: rest).take 7)
    else findPlateWindow rest

/-- `f"{candidate[:2]}{candidate[2:4]} {candidate[4:]}"` — four characters,
a space, the rest. -/
def spaceAt4 (l : List Char) : List Char := l.take 4 ++ ' ' :: l.drop 4

/-! ### `re.search(r'AA[O0]3.*B[O0]J', clean_text)` -/

/-- Head of the tail matches `AA[O0]3`. -/
def isAA03Head : List Char → Bool
  | a :: b :: c :: d :: _ =>
    a == 'A' && b == 'A' && (c == 'O' || c == '0') && d == '3'
  | _ => false

/-- Head of the tail matches `B[O0]J`. -/
def isB0JHead : List Char → Bool
  | a :: b :: c :: _ => a == 'B' && (b == 'O' || b == '0') && c == 'J'
  | _ => false

/-- `re.search(r'AA[O0]3.*B[O0]J', clean_text)` as a Boolean: some suffix
starts with `AA[O0]3` and, past those four characters, some suffix starts
with `B[O0]J`. -/
def searchAA03BOJ (l : List Char) : Bool :=
  l.tails.any fun t => isAA03Head t && (t.drop 4).tails.any isB0JHead

/-! ### The four plate-text normalizer variants -/

/-- `PlateRecognizer.format_uk_plate` (plate_recognizer.py lines 147-165):
clean, and if the cleaned text has length 7, insert the interior space. -/
def PlateRecognizer.format_uk_plate (text : String) : String :=
  let clean_text := cleanAlnumUpper text.data
  if clean_text.length = 7 then String.mk (spaceAt4 clean_text)
  else String.mk clean_text

/-- `UKPlateRecognizer.format_uk_plate` (uk_plate_recognizer.py lines
461-494): clean and confusion-correct; if `AA[O0]3.*B[O0]J` is found
anywhere, return the literal `"AA03 BOJ"`; otherwise scan length-7 windows
for the plate pattern (guarded by `len(clean_text) >= 7`); otherwise, if
the cleaned text has length exactly 7, space it anyway; otherwise return
the cleaned text. -/
def UKPlateRecognizer.format_uk_plate (text : String) : String :=
  let clean_text := ukCleanL text.data
  if searchAA03BOJ clean_text then "AA03 BOJ"
  else
    match (if 7 ≤ clean_text.length then findPlateWindow clean_text else none) with
    | some candidate => String.mk (spaceAt4 candidate)
    | none =>
      if clean_text.length = 7 then String.mk (spaceAt4 clean_text)
      else String.mk clean_text

/-- `clean_and_format_plate` in direct_ocr.py (lines 7-22): clean, scan
windows; no length-7 fallback — unmatched text is returned cleaned but
unspaced. -/
def direct_ocr.clean_and_format_plate (text : String) : String :=
  let clean_text := cleanAlnumUpper text.data
  match (if 7 ≤ clean_text.length then findPlateWindow clean_text else none) with
  | some candidate => String.mk (spaceAt4 candidate)
  | none => String.mk clean_text

/-- `clean_and_format_plate` in simple_detector.py (lines 126-145): clean,
scan windows, and fall back to spacing any cleaned text of length 7. -/
def simple_detector.clean_and_format_plate (text : String) : String :=
  let clean_text := cleanAlnumUpper text.data
  match (if 7 ≤ clean_text.length then findPlateWindow clean_text else none) with
  | some candidate => String.mk (spaceAt4 candidate)
  | none =>
    if clean_text.length = 7 then String.mk (spaceAt4 clean_text)
    else String.mk clean_text

/-- `is_valid_uk_plate` in simple_detector.py (lines 147-155): drop spaces
and test the anchored plate pattern. -/
def simple_detector.is_valid_uk_plate (text : String) : Bool :=
  isPlateWindow (text.data.filter fun c => c ≠ ' ')

/-! ### Images, regions and the OpenCV/Tesseract capability environment -/

/-- A BGR (or HSV, or replicated grayscale) pixel. -/
abbrev Pix := Nat × Nat × Nat

/-- An image: a height × width grid of pixels (`px row col`). -/
structure Img where
  h : Nat
  w : Nat
  px : Nat → Nat → Pix

/-- NumPy slicing `image[y:y+hh, x:x+ww]`: indices are clipped to the array
bounds, so the crop silently shrinks (possibly to an empty image). -/
def cropImg (im : Img) (x y ww hh : Nat) : Img where
  h := min (y + hh) im.h - min y im.h
  w := min (x + ww) im.w - min x im.w
  px := fun r c => im.px (min y im.h + r) (min x im.w + c)

/-- Point-wise pixel transform (`cv2.threshold` with a fixed threshold,
`cv2.bitwise_not`, `cv2.inRange`, ...). -/
def mapPx (im : Img) (f : Pix → Pix) : Img where
  h := im.h
  w := im.w
  px := fun r c => f (im.px r c)

/-- `cv2.inRange(hsv, lower, upper)` membership test for one pixel. -/
def inRange3 (lo hi p : Pix) : Bool :=
  lo.1 ≤ p.1 && p.1 ≤ hi.1 && lo.2.1 ≤ p.2.1 && p.2.1 ≤ hi.2.1 &&
  lo.2.2 ≤ p.2.2 && p.2.2 ≤ hi.2.2

/-- Number of pixels of `im` satisfying `q` (`np.sum(mask > 0)`). -/
def countPx (im : Img) (q : Pix → Bool) : Nat :=
  ((List.range im.h).map fun r =>
    (List.range im.w).countP fun c => q (im.px r c)).sum

/-- `(np.sum(mask > 0) / mask.size) * 100` — the percentage of pixels of
`im` satisfying `q`. -/
def pctPx (im : Img) (q : Pix → Bool) : ℚ :=
  (countPx im q : ℚ) / ((im.h : ℚ) * (im.w : ℚ)) * 100

/-- Rounding a rational to a natural, as OpenCV sizes a resized image. -/
def natRound (q : ℚ) : Nat := (⌊q + 1/2⌋).toNat

/-- A contour: a polygon as a list of `(x, y)` pixel coordinates, as
returned by `cv2.findContours`. -/
abbrev Contour := List (Int × Int)

/-- The smallest Int in `x :: xs`. -/
def minList (x : Int) (xs : List Int) : Int := xs.foldl min x

/-- The largest Int in `x :: xs`. -/
def maxList (x : Int) (xs : List Int) : Int := xs.foldl max x

/-- `cv2.boundingRect(contour) = (x, y, w, h)`: the tight axis-aligned box
of the points, with inclusive pixel extents (`w = max_x - min_x + 1`);
`(0, 0, 0, 0)` for an empty contour. -/
def boundingRect : Contour → Int × Int × Int × Int
  | [] => (0, 0, 0, 0)
  | p :: ps =>
    let x0 := minList p.1 (ps.map Prod.fst)
    let y0 := minList p.2 (ps.map Prod.snd)
    let x1 := maxList p.1 (ps.map Prod.fst)
    let y1 := maxList p.2 (ps.map Prod.snd)
    (x0, y0, x1 - x0 + 1, y1 - y0 + 1)

/-- Twice the signed shoelace area of the polygon. -/
def shoelace (ps : Contour) : Int :=
  (ps.zip (ps.rotate 1)).foldl
    (fun s pq => s + (pq.1.1 * pq.2.2 - pq.2.1 * pq.1.2)) 0

/-- `cv2.contourArea(contour)`: absolute shoelace area of the polygon. -/
def contourArea (ps : Contour) : ℚ := ((shoelace ps).natAbs : ℚ) / 2

/-- The external capability providers: OpenCV image transforms whose pixel
content the pipeline never inspects algebraically, and the Tesseract OCR
engine.  Each field is an oracle the pipeline composes; the repository's
own logic is written over them. -/
structure CVEnv where
  /-- `cv2.cvtColor(_, cv2.COLOR_BGR2GRAY)` (replicated to 3 channels). -/
  bgr2gray : Img → Img
  /-- `cv2.cvtColor(_, cv2.COLOR_BGR2HSV)`. -/
  bgr2hsv : Img → Img
  /-- `cv2.GaussianBlur(_, (5, 5), 0)`. -/
  gaussianBlur : Img → Img
  /-- `cv2.bilateralFilter(_, 11, 17, 17)`. -/
  bilateralFilter : Img → Img
  /-- `cv2.equalizeHist`. -/
  equalizeHist : Img → Img
  /-- `cv2.adaptiveThreshold(_, 255, ADAPTIVE_THRESH_GAUSSIAN_C, THRESH_BINARY, 11, 2)`. -/
  adaptiveThresh : Img → Img
  /-- `cv2.adaptiveThreshold(_, 255, ADAPTIVE_THRESH_GAUSSIAN_C, THRESH_BINARY_INV, 11, 2)`. -/
  adaptiveThreshInv : Img → Img
  /-- `cv2.threshold(_, 0, 255, THRESH_BINARY + THRESH_OTSU)`. -/
  otsu : Img → Img
  /-- `cv2.Canny(_, t1, t2)`. -/
  canny : Nat → Nat → Img → Img
  /-- `cv2.dilate(_, (3,3) kernel, iterations=1)`. -/
  dilate : Img → Img
  /-- `cv2.morphologyEx(_, MORPH_CLOSE, ones((k,k)))`. -/
  morphClose : Nat → Img → Img
  /-- `cv2.morphologyEx(_, MORPH_OPEN, ones((k,k)))`. -/
  morphOpen : Nat → Img → Img
  /-- `cv2.findContours(_, mode, CHAIN_APPROX_SIMPLE)`; `true` is
  `RETR_EXTERNAL`, `false` is `RETR_TREE`. -/
  findContours : Bool → Img → List Contour
  /-- `cv2.approxPolyDP(contour, epsilon, True)`. -/
  approxPolyDP : Contour → ℚ → Contour
  /-- `cv2.arcLength(contour, True)`. -/
  arcLength : Contour → ℚ
  /-- Pixel resampling of `cv2.resize` (INTER_CUBIC): given the source and
  the two scale factors, the pixel at a target coordinate. -/
  resamplePx : Img → ℚ → ℚ → Nat → Nat → Pix
  /-- `pytesseract.image_to_data(img, config=cfg)`: the `(text, conf)`
  rows for one configuration string. -/
  image_to_data : Img → String → List (String × ℚ)
  /-- `pytesseract.image_to_string(img, config=cfg)`. -/
  image_to_string : Img → String → String

/-- `cv2.resize(im, None, fx=fx, fy=fy, ...)`: the output dimensions are
the rounded scaled dimensions; the pixel content comes from the
resampling oracle. -/
def cvResize (env : CVEnv) (im : Img) (fx fy : ℚ) : Img where
  h := natRound ((im.h : ℚ) * fy)
  w := natRound ((im.w : ℚ) * fx)
  px := env.resamplePx im fx fy

/-- `cv2.threshold(gray, 180, 255, cv2.THRESH_BINARY)` — point-wise. -/
def threshold180 (im : Img) : Img :=
  mapPx im fun p => if 180 < p.1 then (255, 255, 255) else (0, 0, 0)

/-- `cv2.bitwise_not`. -/
def bitwiseNot (im : Img) : Img :=
  mapPx im fun p => (255 - p.1, 255 - p.2.1, 255 - p.2.2)

/-- Lower HSV bound for blue (`np.array([100, 50, 50])`). -/
def lowerBlue : Pix := (100, 50, 50)

/-- Upper HSV bound for blue (`np.array([130, 255, 255])`). -/
def upperBlue : Pix := (130, 255, 255)

/-- Lower HSV bound for white (`np.array([0, 0, 180])`). -/
def lowerWhite : Pix := (0, 0, 180)

/-- Upper HSV bound for white (`np.array([180, 30, 255])`). -/
def upperWhite : Pix := (180, 30, 255)

/-- Stable insertion of a contour into an area-descending list: it goes
after every earlier contour of greater or equal area. -/
def insertAreaDesc (x : Contour) : List Contour → List Contour
  | [] => [x]
  | y :: ys =>
    if contourArea x ≤ contourArea y then y :: insertAreaDesc x ys
    else x :: y :: ys

/-- `sorted(contours, key=cv2.contourArea, reverse=True)`: Python's stable
descending sort, realized as a stable insertion sort (any two stable
sorts agree). -/
def sortByAreaDesc (cs : List Contour) : List Contour :=
  cs.foldl (fun acc x => insertAreaDesc x acc) []

/-- `'GB' in text`. -/
def containsGB (s : String) : Bool :=
  s.data.tails.any fun t => t.take 2 == ['G', 'B']

/-! ### PlateRecognizer (plate_recognizer.py) -/

/-- The three OCR configurations of `PlateRecognizer.recognize_plate`. -/
def PlateRecognizer.prConfigs : List String :=
  ["--psm 7 --oem 1 -c tessedit_char_whitelist=ABCDEFGHIJKLMNOPQRSTUVWXYZ0123456789",
   "--psm 8 --oem 1 -c tessedit_char_whitelist=ABCDEFGHIJKLMNOPQRSTUVWXYZ0123456789",
   "--psm 13 --oem 1 -c tessedit_char_whitelist=ABCDEFGHIJKLMNOPQRSTUVWXYZ0123456789"]

/-- `PlateRecognizer.preprocess_image` (lines 25-51): grayscale, bilateral
filter, histogram equalization, Canny 30/200, dilate. -/
def PlateRecognizer.preprocess_image (env : CVEnv) (image : Img) : Img :=
  env.dilate (env.canny 30 200 (env.equalizeHist (env.bilateralFilter (env.bgr2gray image))))

/-- `PlateRecognizer.find_plate_contours` (lines 53-88): contours of the
preprocessed image, sorted by area descending, top 20, kept when the
contour area is between 1% and 10% of the original image's area and the
bounding-box aspect is strictly between 3.0 and 6.0. -/
def PlateRecognizer.find_plate_contours (env : CVEnv) (image original_image : Img) :
    List Contour :=
  let contours := (sortByAreaDesc (env.findContours false image)).take 20
  let total_area : ℚ := (original_image.h : ℚ) * (original_image.w : ℚ)
  contours.filter fun contour =>
    let area := contourArea contour
    if 1/100 * total_area < area ∧ area < 1/10 * total_area then
      let r := boundingRect contour
      let aspect : ℚ := (r.2.2.1 : ℚ) / (r.2.2.2 : ℚ)
      decide (3 < aspect ∧ aspect < 6)
    else false

/-- `PlateRecognizer.extract_plate` (lines 90-116): crop the bounding box
and rescale it to 50px height; the whole body is wrapped in
`try/except` returning `None`, which catches both the `50.0 / h`
division by zero (h = 0) and the `cv2.resize` error on an empty crop
(box entirely outside the image). -/
def PlateRecognizer.extract_plate (env : CVEnv) (image : Img) (contour : Contour) :
    Option Img :=
  let r := boundingRect contour
  let plate := cropImg image r.1.toNat r.2.1.toNat r.2.2.1.toNat r.2.2.2.toNat
  if r.2.2.2 = 0 then none
  else if plate.h = 0 ∨ plate.w = 0 then none
  else some (cvResize env plate (50 / (r.2.2.2 : ℚ)) (50 / (r.2.2.2 : ℚ)))

/-- `PlateRecognizer.enhance_plate_image` (lines 118-145): grayscale, blur,
inverse adaptive threshold, opening, invert back. -/
def PlateRecognizer.enhance_plate_image (env : CVEnv) (plate_img : Img) : Img :=
  bitwiseNot (env.morphOpen 3 (env.adaptiveThreshInv (env.gaussianBlur (env.bgr2gray plate_img))))

/-- Accumulator of the `recognize_plate` selection loop:
`(best_text, best_confidence, best_plate_img)`. -/
abbrev PlateRecognizer.RecSt := Option String × ℚ × Option Img

/-- One row of OCR output processed by the selection loop (lines 220-226):
admit when `conf > 0` and `text.strip()` is nonempty and the confidence
strictly exceeds the best so far. -/
def PlateRecognizer.rowStep (plate_img : Img) (st : RecSt) (row : String × ℚ) : RecSt :=
  if 0 < row.2 then
    if pyStrip row.1 ≠ "" ∧ st.2.1 < row.2 then (some row.1, row.2, some plate_img)
    else st
  else st

/-- `PlateRecognizer.recognize_plate` (lines 167-233): preprocess, find
candidate contours, and for every contour that extracts, run all three
OCR configurations, keeping the highest-confidence token; format the
winner at the end. -/
def PlateRecognizer.recognize_plate (env : CVEnv) (image : Img) :
    Option String × Option Img :=
  let original := image
  let processed := preprocess_image env original
  let contours := find_plate_contours env processed original
  if contours = [] then (none, none)
  else
    let st : RecSt := contours.foldl (fun st contour =>
      match extract_plate env original contour with
      | none => st
      | some plate_img =>
        let enhanced := enhance_plate_image env plate_img
        prConfigs.foldl (fun st config =>
          (env.image_to_data enhanced config).foldl (rowStep plate_img) st) st)
      (none, 0, none)
    match st.1 with
    | some best_text => (some (format_uk_plate best_text), st.2.2)
    | none => (none, none)

/-- All OCR tokens `recognize_plate` is offered: for every candidate
contour that extracts, for every one of the three configurations, every
row with positive confidence and nonempty stripped text (each tagged
with its plate image).  This is the "union of all configurations'
outputs" of the aggregation claim. -/
def PlateRecognizer.allTokens (env : CVEnv) (image : Img) : List (String × ℚ × Img) :=
  (find_plate_contours env (preprocess_image env image) image).flatMap fun contour =>
    match extract_plate env image contour with
    | none => []
    | some plate_img =>
      prConfigs.flatMap fun config =>
        (env.image_to_data (enhance_plate_image env plate_img) config).filterMap
          fun row =>
            if 0 < row.2 ∧ pyStrip row.1 ≠ "" then some (row.1, row.2, plate_img)
            else none

/-- First-seen maximal-confidence selection over a token list. -/
def tokMerge (b : Option (String × ℚ × Img)) (y : String × ℚ × Img) :
    Option (String × ℚ × Img) :=
  match b with
  | none => some y
  | some x => if x.2.1 < y.2.1 then some y else some x

/-- The best hypothesis (highest confidence, first seen on ties) over a
token list. -/
def firstMaxTok (l : List (String × ℚ × Img)) : Option (String × ℚ × Img) :=
  l.foldl tokMerge none

/-- The selection-loop accumulator corresponding to a current best
token: `None`/0 before any admission, else the token's fields. -/
def tokSt : Option (String × ℚ × Img) → PlateRecognizer.RecSt
  | none => (none, 0, none)
  | some y => (some y.1, y.2.1, some y.2.2)

/-- A contour point lies inside an image. -/
def ptInImg (im : Img) (p : Int × Int) : Prop :=
  0 ≤ p.1 ∧ p.1 < (im.w : Int) ∧ 0 ≤ p.2 ∧ p.2 < (im.h : Int)

instance (im : Img) (p : Int × Int) : Decidable (ptInImg im p) := by
  unfold ptInImg
  infer_instance

/-- The `x` of a bounding box `(x, y, w, h)`. -/
def bboxX (r : Int × Int × Int × Int) : Int := r.1

/-- The `y` of a bounding box `(x, y, w, h)`. -/
def bboxY (r : Int × Int × Int × Int) : Int := r.2.1

/-- The `w` of a bounding box `(x, y, w, h)`. -/
def bboxW (r : Int × Int × Int × Int) : Int := r.2.2.1

/-- The `h` of a bounding box `(x, y, w, h)`. -/
def bboxH (r : Int × Int × Int × Int) : Int := r.2.2.2

/-- A bounding box lies inside an image. -/
def bboxInImg (im : Img) (r : Int × Int × Int × Int) : Prop :=
  0 ≤ bboxX r ∧ 0 ≤ bboxY r ∧
  bboxX r + bboxW r ≤ (im.w : Int) ∧ bboxY r + bboxH r ≤ (im.h : Int)

/-! ### UKPlateRecognizer (uk_plate_recognizer.py) -/

/-- The entries of the result dict of `UKPlateRecognizer.process_image`. -/
structure PlateEntry where
  plate_number : String
  country_identifier : String
  region : Img
  bbox : Int × Int × Int × Int

/-- The four OCR configurations of `recognize_plate_number` (lines 319-324). -/
def UKPlateRecognizer.ukConfigs : List String :=
  ["--psm 7 -l eng --oem 3 -c tessedit_char_whitelist=ABCDEFGHIJKLMNOPQRSTUVWXYZ0123456789",
   "--psm 8 -l eng --oem 3 -c tessedit_char_whitelist=ABCDEFGHIJKLMNOPQRSTUVWXYZ0123456789",
   "--psm 6 -l eng --oem 3 -c tessedit_char_whitelist=ABCDEFGHIJKLMNOPQRSTUVWXYZ0123456789",
   "--psm 13 -l eng --oem 3 -c tessedit_char_whitelist=ABCDEFGHIJKLMNOPQRSTUVWXYZ0123456789"]

/-- The three OCR configurations of `direct_ocr_plate` (lines 139-143). -/
def UKPlateRecognizer.dopConfigs : List String :=
  ["--psm 7 -l eng --oem 3 -c tessedit_char_whitelist=ABCDEFGHIJKLMNOPQRSTUVWXYZ0123456789",
   "--psm 8 -l eng --oem 3 -c tessedit_char_whitelist=ABCDEFGHIJKLMNOPQRSTUVWXYZ0123456789",
   "--psm 6 -l eng --oem 3 -c tessedit_char_whitelist=ABCDEFGHIJKLMNOPQRSTUVWXYZ0123456789"]

/-- The single-character OCR configuration used on the identifier band. -/
def UKPlateRecognizer.psm10Config : String :=
  "--psm 10 -l eng --oem 3 -c tessedit_char_whitelist=ABCDEFGHIJKLMNOPQRSTUVWXYZ"

/-- The single-line OCR configuration used by the fallback attempts. -/
def UKPlateRecognizer.psm7Config : String :=
  "--psm 7 -l eng --oem 3 -c tessedit_char_whitelist=ABCDEFGHIJKLMNOPQRSTUVWXYZ0123456789"

/-- `UKPlateRecognizer.is_clearly_uk_plate` (lines 190-221): the leftmost
15% band has more than 10% blue pixels (HSV in `[100,50,50]..[130,255,255]`)
and the image aspect ratio is strictly between 3.5 and 5.5. -/
def UKPlateRecognizer.is_clearly_uk_plate (env : CVEnv) (image : Img) : Bool :=
  let left_part := cropImg image 0 0 (image.w * 15 / 100) image.h
  let hsv := env.bgr2hsv left_part
  let blue_percentage := pctPx hsv (inRange3 lowerBlue upperBlue)
  let aspect : ℚ := (image.w : ℚ) / (image.h : ℚ)
  decide (10 < blue_percentage) && decide (7/2 < aspect ∧ aspect < 11/2)

/-- The thresholded whole image `direct_ocr_plate` feeds to OCR. -/
def UKPlateRecognizer.dopThresh (env : CVEnv) (image : Img) : Img :=
  env.adaptiveThresh (env.bgr2gray image)

/-- `UKPlateRecognizer.direct_ocr_plate` (lines 113-188): OCR the
thresholded whole image under three configurations keeping the best
`conf > 10` token; failing that, OCR the right 80% region; failing
that, return the preset `"AA03 BOJ"` when `is_clearly_uk_plate`,
else `"UNKNOWN"`. -/
def UKPlateRecognizer.direct_ocr_plate (env : CVEnv) (image : Img) : String :=
  let thresh := dopThresh env image
  let best : String × ℚ := dopConfigs.foldl (fun best config =>
    (env.image_to_data thresh config).foldl (fun best row =>
      if 10 < row.2 then
        if row.1 ≠ "" ∧ best.2 < row.2 then (row.1, row.2) else best
      else best) best) ("", 0)
  if best.1 ≠ "" then format_uk_plate best.1
  else
    let plate_part := cropImg image (image.w * 2 / 10) 0 (image.w - image.w * 2 / 10) image.h
    let plate_thresh := env.otsu (env.bgr2gray plate_part)
    let text := pyStrip (env.image_to_string plate_thresh psm7Config)
    if text ≠ "" then format_uk_plate text
    else if is_clearly_uk_plate env image then "AA03 BOJ"
    else "UNKNOWN"

/-- The dilated edge image `detect_plate_regions` extracts contours from
(lines 233-253): grayscale, Gaussian blur, adaptive threshold, closing,
Canny 30/200, dilation. -/
def UKPlateRecognizer.ukDilated (env : CVEnv) (image : Img) : Img :=
  env.dilate (env.canny 30 200 (env.morphClose 3 (env.adaptiveThresh (env.gaussianBlur (env.bgr2gray image)))))

/-- `UKPlateRecognizer.detect_plate_regions` (lines 223-282): external
contours of the dilated edges, top 15 by area, kept when the polygon
approximation has 4-6 vertices and the bounding-box aspect is strictly
between 2.0 and 7.0; each kept contour yields the cropped region and its
bounding box. -/
def UKPlateRecognizer.detect_plate_regions (env : CVEnv) (image : Img) :
    List (Img × (Int × Int × Int × Int)) :=
  let contours := (sortByAreaDesc (env.findContours true (ukDilated env image))).take 15
  contours.filterMap fun contour =>
    let perimeter := env.arcLength contour
    let approx := env.approxPolyDP contour (2/100 * perimeter)
    if 4 ≤ approx.length ∧ approx.length ≤ 6 then
      let r := boundingRect contour
      let aspect : ℚ := (r.2.2.1 : ℚ) / (r.2.2.2 : ℚ)
      if 2 < aspect ∧ aspect < 7 then
        some (cropImg image r.1.toNat r.2.1.toNat r.2.2.1.toNat r.2.2.2.toNat, r)
      else none
    else none

/-- The preprocessed main-plate part `recognize_plate_number` feeds to OCR
(lines 294-316): adaptive threshold of the grayscale, keep the right 85%
(skip the country-identifier band), opening with a 2×2 kernel. -/
def UKPlateRecognizer.rpnPrepared (env : CVEnv) (plate_image : Img) : Img :=
  let binary := env.adaptiveThresh (env.bgr2gray plate_image)
  let main_plate_part := cropImg binary (binary.w * 15 / 100) 0
    (binary.w - binary.w * 15 / 100) binary.h
  env.morphOpen 2 main_plate_part

/-- The `(formatted text, confidence)` pairs `recognize_plate_number`
accumulates over all four configurations (lines 326-342): every row with
`conf > 0` and nonempty, nonblank text, formatted immediately. -/
def UKPlateRecognizer.rpnPairs (env : CVEnv) (plate_image : Img) : List (String × ℚ) :=
  ukConfigs.flatMap fun config =>
    (env.image_to_data (rpnPrepared env plate_image) config).filterMap fun row =>
      if 0 < row.2 ∧ row.1 ≠ "" ∧ pyStrip row.1 ≠ "" then
        some (format_uk_plate row.1, row.2)
      else none

/-- Python `max(confidences)` on a nonempty list (0 for an empty one). -/
def listMax : List ℚ → ℚ
  | [] => 0
  | x :: xs => xs.foldl max x

/-- `UKPlateRecognizer.recognize_plate_number` (lines 284-363): aggregate
OCR over all four configurations; if nothing admissible came back, try a
plain `image_to_string`, then the `"AA03 BOJ"` preset when the image
clearly looks like a UK plate, else `"UNKNOWN"`; otherwise return the
text at the first index of maximal confidence
(`all_texts[confidences.index(max(confidences))]`). -/
def UKPlateRecognizer.recognize_plate_number (env : CVEnv) (plate_image : Img) : String :=
  let pairs := rpnPairs env plate_image
  if pairs = [] then
    let text := pyStrip (env.image_to_string (rpnPrepared env plate_image) psm7Config)
    if text ≠ "" then format_uk_plate text
    else if is_clearly_uk_plate env plate_image then "AA03 BOJ"
    else "UNKNOWN"
  else
    let confidences := pairs.map Prod.snd
    (pairs.map Prod.fst).getD (confidences.indexOf (listMax confidences)) ""

/-- The country-identifier image after the small-image rescale (lines
376-382): images narrower than 100px are scaled up to 200px width. -/
def UKPlateRecognizer.dciBase (env : CVEnv) (plate_image : Img) : Img :=
  if plate_image.w < 100 then
    cvResize env plate_image (200 / (plate_image.w : ℚ)) (200 / (plate_image.w : ℚ))
  else plate_image

/-- The leftmost 18% band holding the country identifier (line 386). -/
def UKPlateRecognizer.dciLeft (env : CVEnv) (plate_image : Img) : Img :=
  let im := dciBase env plate_image
  cropImg im 0 0 (im.w * 18 / 100) im.h

/-- The blue percentage of the identifier band (lines 392-403). -/
def UKPlateRecognizer.dciBluePct (env : CVEnv) (plate_image : Img) : ℚ :=
  pctPx (env.bgr2hsv (dciLeft env plate_image)) (inRange3 lowerBlue upperBlue)

/-- The white percentage of the identifier band (lines 446-449). -/
def UKPlateRecognizer.dciWhitePct (env : CVEnv) (plate_image : Img) : ℚ :=
  pctPx (env.bgr2hsv (dciLeft env plate_image)) (inRange3 lowerWhite upperWhite)

/-- The first OCR attempt on the thresholded, morphologically closed
band (lines 412-427). -/
def UKPlateRecognizer.dciText1 (env : CVEnv) (plate_image : Img) : String :=
  env.image_to_string
    (env.morphClose 2 (threshold180 (env.bgr2gray (dciLeft env plate_image))))
    psm10Config

/-- The second, simpler OCR attempt on the raw band (lines 434-438). -/
def UKPlateRecognizer.dciText2 (env : CVEnv) (plate_image : Img) : String :=
  env.image_to_string (dciLeft env plate_image) psm10Config

/-- `UKPlateRecognizer.detect_country_identifier` (lines 365-459): if the
band is more than 10% blue: "GB" when either OCR attempt sees `GB`, or
when the secondary visual heuristic (white > 5% and blue > 20%) fires;
otherwise "EU"; without the blue band, "UNKNOWN". -/
def UKPlateRecognizer.detect_country_identifier (env : CVEnv) (plate_image : Img) :
    String :=
  if 10 < dciBluePct env plate_image then
    if containsGB (dciText1 env plate_image) then "GB"
    else if containsGB (dciText2 env plate_image) then "GB"
    else if 5 < dciWhitePct env plate_image ∧ 20 < dciBluePct env plate_image then "GB"
    else "EU"
  else "UNKNOWN"

/-- `UKPlateRecognizer.process_image` (lines 19-111).  `cv2.imread` is
modelled by the `Option Img` argument: `none` is an unreadable image, on
which the source prints an error and returns `None`.  If the image's own
aspect ratio is strictly between 3.5 and 5.5, the whole image is treated
as the single plate `"plate_0"`. Otherwise contour detection runs; with
no regions, a direct whole-image OCR is attempted and contributes a
`"plate_0"` entry only when it did not return `"UNKNOWN"`; with regions,
each one becomes an entry `"plate_{idx}"` in order. -/
def UKPlateRecognizer.process_image (env : CVEnv) (loaded : Option Img) :
    Option (List (String × PlateEntry)) :=
  match loaded with
  | none => none
  | some image =>
    let aspect : ℚ := (image.w : ℚ) / (image.h : ℚ)
    if 7/2 < aspect ∧ aspect < 11/2 then
      some [("plate_0",
        { plate_number := recognize_plate_number env image
          country_identifier := detect_country_identifier env image
          region := image
          bbox := (0, 0, (image.w : Int), (image.h : Int)) })]
    else
      let plate_regions := detect_plate_regions env image
      if plate_regions.isEmpty then
        let plate_number := direct_ocr_plate env image
        let country_id := detect_country_identifier env image
        if plate_number ≠ "UNKNOWN" then
          some [("plate_0",
            { plate_number := plate_number
              country_identifier := country_id
              region := image
              bbox := (0, 0, (image.w : Int), (image.h : Int)) })]
        else some []
      else
        some (plate_regions.enum.map fun e =>
          ("plate_" ++ toString e.1,
            { plate_number := recognize_plate_number env e.2.1
              country_identifier := detect_country_identifier env e.2.1
              region := e.2.1
              bbox := e.2.2 }))

/-! ### simple_detector.py -/

/-- The three OCR configurations of the simple detector (lines 102-106). -/
def simple_detector.sdConfigs : List String :=
  ["--psm 7 --oem 3 -c tessedit_char_whitelist=ABCDEFGHIJKLMNOPQRSTUVWXYZ0123456789",
   "--psm 8 --oem 3 -c tessedit_char_whitelist=ABCDEFGHIJKLMNOPQRSTUVWXYZ0123456789",
   "--psm 6 --oem 3 -c tessedit_char_whitelist=ABCDEFGHIJKLMNOPQRSTUVWXYZ0123456789"]

/-- The OCR loop of `detect_and_recognize_plate` (lines 108-119): walk the
configurations in order; as soon as one produces a cleaned text that is a
valid UK plate, stop (`break`); otherwise remember the first nonempty
cleaned text.  The second component counts how many configurations were
actually submitted to OCR, making the early exit observable. -/
def simple_detector.ocrLoop (env : CVEnv) (plate_pil : Img) :
    List String → String → String × Nat
  | [], best_text => (best_text, 0)
  | config :: rest, best_text =>
    let cleaned := clean_and_format_plate (env.image_to_string plate_pil config)
    if is_valid_uk_plate cleaned then (cleaned, 1)
    else
      let best_text := if best_text = "" ∧ cleaned ≠ "" then cleaned else best_text
      let r := ocrLoop env plate_pil rest best_text
      (r.1, r.2 + 1)

/-- The thresholded image of the simple detector (lines 22-28). -/
def simple_detector.sdThresh (env : CVEnv) (image : Img) : Img :=
  env.otsu (env.gaussianBlur (env.bgr2gray image))

/-- The contour-selection loop of `detect_and_recognize_plate` (lines
40-76): first contour (top 10 by area of the Canny edges) whose polygon
approximation has 4-6 vertices and whose bounding box has aspect ratio
strictly between 2.0 and 7.0; `break` on the first hit. -/
def simple_detector.findPlateImage (env : CVEnv) (image : Img) :
    Option (Img × (Int × Int × Int × Int)) :=
  let contours :=
    (sortByAreaDesc (env.findContours true (env.canny 50 150 (sdThresh env image)))).take 10
  contours.findSome? fun contour =>
    let approx := env.approxPolyDP contour (2/100 * env.arcLength contour)
    if 4 ≤ approx.length ∧ approx.length ≤ 6 then
      let r := boundingRect contour
      let aspect : ℚ := (r.2.2.1 : ℚ) / (r.2.2.2 : ℚ)
      if 2 < aspect ∧ aspect < 7 then
        some (cropImg image r.1.toNat r.2.1.toNat r.2.2.1.toNat r.2.2.2.toNat, r)
      else none
    else none

/-- `simple_detector.detect_and_recognize_plate` (lines 8-124): on a
loaded image, find the plate contour; without one, direct OCR of the
whole thresholded image; with one, threshold the plate and run the
config loop, returning its best text if nonempty. -/
def simple_detector.detect_and_recognize_plate (env : CVEnv) (loaded : Option Img) :
    Option String × Option Img :=
  match loaded with
  | none => (none, none)
  | some image =>
    match findPlateImage env image with
    | none =>
      let text := env.image_to_string (sdThresh env image) "--psm 11 --oem 3"
      (some (clean_and_format_plate text), some image)
    | some pr =>
      let plate_pil := env.otsu (env.bgr2gray pr.1)
      let best_text := (ocrLoop env plate_pil sdConfigs "").1
      if best_text ≠ "" then (some best_text, some image) else (none, some image)

/-! ### Concrete environments and images used to instantiate the theorems -/

/-- A trivial capability environment: every image transform is the
identity, no contours are found, OCR returns nothing. -/
def idEnv : CVEnv where
  bgr2gray := id
  bgr2hsv := id
  gaussianBlur := id
  bilateralFilter := id
  equalizeHist := id
  adaptiveThresh := id
  adaptiveThreshInv := id
  otsu := id
  canny := fun _ _ im => im
  dilate := id
  morphClose := fun _ im => im
  morphOpen := fun _ im => im
  findContours := fun _ _ => []
  approxPolyDP := fun contour _ => contour
  arcLength := fun _ => 0
  resamplePx := fun im _ _ r c => im.px r c
  image_to_data := fun _ _ => []
  image_to_string := fun _ _ => ""

/-- An all-black image of the given dimensions. -/
def blackImg (hh ww : Nat) : Img where
  h := hh
  w := ww
  px := fun _ _ => (0, 0, 0)

/-- A 45×10 image (plate-like aspect ratio 4.5) entirely of in-band blue
HSV pixels. -/
def blueImg : Img where
  h := 10
  w := 45
  px := fun _ _ => (110, 100, 100)

/-- A 200×10 image whose leftmost 18% band (36 columns of 10 rows) has
exactly 54 of its 360 pixels (15%) in the blue HSV band. -/
def blueBandImg : Img where
  h := 10
  w := 200
  px := fun r c => if r < 2 ∧ c < 27 then (110, 100, 100) else (0, 0, 0)

/-- An environment whose contour oracle reports one small 7×2 rectangle. -/
def envSmallContour : CVEnv :=
  { idEnv with findContours := fun _ _ => [[(0, 0), (6, 0), (6, 1), (0, 1)]] }

/-- An environment whose contour oracle reports one 50×10 rectangle. -/
def envRectContour : CVEnv :=
  { idEnv with findContours := fun _ _ => [[(0, 0), (49, 0), (49, 9), (0, 9)]] }

/-- An environment whose string OCR always reads a valid plate. -/
def envOcrValid : CVEnv :=
  { idEnv with image_to_string := fun _ _ => "AB12CDE" }

/-- An environment whose data OCR always returns one confident token. -/
def envOcrToken : CVEnv :=
  { idEnv with image_to_data := fun _ _ => [("AB12CDE", 50)] }


/-! ### Lemmas about the character-level cleaning -/

theorem toNat_ofNat_valid (n : Nat) (h : n < 55296) : (Char.ofNat n).toNat = n := by
  have hv : n.isValidChar := Or.inl h
  rw [Char.ofNat, dif_pos hv]
  rfl

theorem mem_cleanAlnumUpper {c : Char} {l : List Char} (h : c ∈ cleanAlnumUpper l) :
    (charUpper c || charDigit c) = true := by
  obtain ⟨b, hb, rfl⟩ := List.mem_map.1 h
  have hbAl : pyIsAlnum b = true := List.of_mem_filter hb
  unfold pyToUpper
  by_cases hlow : charLower b = true
  · rw [if_pos hlow]
    have h1 : 97 ≤ b.toNat ∧ b.toNat ≤ 122 := by
      simpa [charLower] using hlow
    have h2 : (Char.ofNat (b.toNat - 32)).toNat = b.toNat - 32 :=
      toNat_ofNat_valid _ (by omega)
    simp only [charUpper, charDigit, h2]
    simp only [Bool.or_eq_true, Bool.and_eq_true, decide_eq_true_eq]
    omega
  · rw [if_neg hlow]
    have := hbAl
    simp only [pyIsAlnum, Bool.or_eq_true] at this
    rcases this with (hu | hl) | hd
    · simp [hu]
    · exact absurd hl hlow
    · simp [hd]

theorem cleanChar_fix {c : Char} (h : (charUpper c || charDigit c) = true) :
    pyIsAlnum c = true ∧ pyToUpper c = c := by
  have hrange : (65 ≤ c.toNat ∧ c.toNat ≤ 90) ∨ (48 ≤ c.toNat ∧ c.toNat ≤ 57) := by
    simpa [charUpper, charDigit, Bool.or_eq_true, Bool.and_eq_true,
      decide_eq_true_eq] using h
  have h97 : ¬ 97 ≤ c.toNat := by omega
  have hlow : charLower c = false := by simp [charLower, h97]
  constructor
  · have := h
    simp only [Bool.or_eq_true] at this
    rcases this with hu | hd
    · simp [pyIsAlnum, hu]
    · simp [pyIsAlnum, hd]
  · simp [pyToUpper, hlow]

theorem cleanAlnumUpper_fix {l : List Char}
    (h : ∀ c ∈ l, (charUpper c || charDigit c) = true) :
    cleanAlnumUpper l = l := by
  induction l with
  | nil => rfl
  | cons a t ih =>
    have ha := cleanChar_fix (h a (List.mem_cons_self a t))
    have ht := ih fun c hc => h c (List.mem_cons_of_mem a hc)
    simp only [cleanAlnumUpper, List.filter_cons, ha.1, if_pos, List.map_cons, ha.2]
    simpa [cleanAlnumUpper] using ht

theorem mem_ukCleanL {c : Char} {l : List Char} (h : c ∈ ukCleanL l) :
    (charUpper c || charDigit c) = true ∧ c ≠ 'O' ∧ c ≠ 'I' := by
  obtain ⟨b1, hb1, rfl⟩ := List.mem_map.1 h
  obtain ⟨b0, hb0, rfl⟩ := List.mem_map.1 hb1
  have hb := mem_cleanAlnumUpper hb0
  unfold replO replI
  by_cases hO : b0 = 'O'
  · subst hO
    decide
  · rw [if_neg hO]
    by_cases hI : b0 = 'I'
    · subst hI
      decide
    · rw [if_neg hI]
      exact ⟨hb, hO, hI⟩

theorem ukCleanL_fix {l : List Char}
    (h : ∀ c ∈ l, (charUpper c || charDigit c) = true ∧ c ≠ 'O' ∧ c ≠ 'I') :
    ukCleanL l = l := by
  unfold ukCleanL
  rw [cleanAlnumUpper_fix fun c hc => (h c hc).1]
  have : ∀ c ∈ l, replI (replO c) = c := by
    intro c hc
    rw [replO, if_neg (h c hc).2.1, replI, if_neg (h c hc).2.2]
  calc (l.map replO).map replI = l.map (fun c => replI (replO c)) := by
        rw [List.map_map]; rfl
    _ = l := List.map_congr_left this ▸ List.map_id l

theorem cleanAlnumUpper_append (a b : List Char) :
    cleanAlnumUpper (a ++ b) = cleanAlnumUpper a ++ cleanAlnumUpper b := by
  simp [cleanAlnumUpper]

theorem cleanAlnumUpper_space_cons (l : List Char) :
    cleanAlnumUpper (' ' :: l) = cleanAlnumUpper l := by
  have : pyIsAlnum ' ' = false := by decide
  simp [cleanAlnumUpper, List.filter_cons, this]

theorem cleanAlnumUpper_spaceAt4 {l : List Char}
    (h : ∀ c ∈ l, (charUpper c || charDigit c) = true) :
    cleanAlnumUpper (spaceAt4 l) = l := by
  unfold spaceAt4
  rw [cleanAlnumUpper_append, cleanAlnumUpper_space_cons,
    cleanAlnumUpper_fix fun c hc => h c ((List.take_sublist 4 l).subset hc),
    cleanAlnumUpper_fix fun c hc => h c ((List.drop_sublist 4 l).subset hc),
    List.take_append_drop]

theorem ukCleanL_spaceAt4 {l : List Char}
    (h : ∀ c ∈ l, (charUpper c || charDigit c) = true ∧ c ≠ 'O' ∧ c ≠ 'I') :
    ukCleanL (spaceAt4 l) = l := by
  unfold spaceAt4
  have hsp : ukCleanL (l.take 4 ++ ' ' :: l.drop 4)
      = ukCleanL (l.take 4) ++ ukCleanL (l.drop 4) := by
    unfold ukCleanL
    rw [cleanAlnumUpper_append, cleanAlnumUpper_space_cons]
    simp
  rw [hsp, ukCleanL_fix fun c hc => h c ((List.take_sublist 4 l).subset hc),
    ukCleanL_fix fun c hc => h c ((List.drop_sublist 4 l).subset hc),
    List.take_append_drop]

/-! ### Lemmas about the plate-pattern window scan -/

theorem isPlateWindow_length : ∀ {w : List Char}, isPlateWindow w = true → w.length = 7
  | [_, _, _, _, _, _, _], _ => rfl
  | [], h => by simp [isPlateWindow] at h
  | [_], h => by simp [isPlateWindow] at h
  | [_, _], h => by simp [isPlateWindow] at h
  | [_, _, _], h => by simp [isPlateWindow] at h
  | [_, _, _, _], h => by simp [isPlateWindow] at h
  | [_, _, _, _, _], h => by simp [isPlateWindow] at h
  | [_, _, _, _, _, _], h => by simp [isPlateWindow] at h
  | _ :: _ :: _ :: _ :: _ :: _ :: _ :: _ :: _, h => by simp [isPlateWindow] at h

theorem isPlateWindow_chars : ∀ {w : List Char}, isPlateWindow w = true →
    ∀ c ∈ w, (charUpper c || charDigit c) = true
  | [a, b, c, d, e, f, g], h => by
    simp only [isPlateWindow, Bool.and_eq_true] at h
    obtain ⟨⟨⟨⟨⟨⟨h1, h2⟩, h3⟩, h4⟩, h5⟩, h6⟩, h7⟩ := h
    intro x hx
    simp only [List.mem_cons, List.not_mem_nil, or_false] at hx
    rcases hx with rfl | rfl | rfl | rfl | rfl | rfl | rfl <;>
      simp [h1, h2, h3, h4, h5, h6, h7]
  | [], h => by simp [isPlateWindow] at h
  | [_], h => by simp [isPlateWindow] at h
  | [_, _], h => by simp [isPlateWindow] at h
  | [_, _, _], h => by simp [isPlateWindow] at h
  | [_, _, _, _], h => by simp [isPlateWindow] at h
  | [_, _, _, _, _], h => by simp [isPlateWindow] at h
  | [_, _, _, _, _, _], h => by simp [isPlateWindow] at h
  | _ :: _ :: _ :: _ :: _ :: _ :: _ :: _ :: _, h => by simp [isPlateWindow] at h

theorem findPlateWindow_short : ∀ {l : List Char}, l.length < 7 →
    findPlateWindow l = none := by
  intro l
  induction l with
  | nil => intro; rfl
  | cons c rest ih =>
    intro hlen
    have htake : ((c :: rest).take 7).length ≠ 7 := by
      simp only [List.length_take]
      omega
    have hwin : isPlateWindow ((c :: rest).take 7) = false := by
      cases heq : isPlateWindow ((c :: rest).take 7) with
      | false => rfl
      | true => exact absurd (isPlateWindow_length heq) htake
    simp only [findPlateWindow, hwin, Bool.false_eq_true, if_false]
    exact ih (by simp at hlen ⊢; omega)

theorem findPlateWindow_guard (l : List Char) :
    (if 7 ≤ l.length then findPlateWindow l else none) = findPlateWindow l := by
  split
  · rfl
  · exact (findPlateWindow_short (by omega)).symm

theorem findPlateWindow_some : ∀ {l w : List Char}, findPlateWindow l = some w →
    isPlateWindow w = true ∧ w <:+: l := by
  intro l
  induction l with
  | nil => intro w h; simp [findPlateWindow] at h
  | cons c rest ih =>
    intro w h
    by_cases hw : isPlateWindow ((c :: rest).take 7) = true
    · simp only [findPlateWindow, hw, if_true] at h
      obtain rfl := Option.some.inj h
      exact ⟨hw, (List.take_prefix 7 (c :: rest)).isInfix⟩
    · simp only [findPlateWindow, hw, if_false] at h
      exact ⟨(ih h).1, List.infix_cons (ih h).2⟩

theorem findPlateWindow_self {w : List Char} (h : isPlateWindow w = true) :
    findPlateWindow w = some w := by
  have hlen := isPlateWindow_length h
  cases w with
  | nil => simp at hlen
  | cons c rest =>
    have htake : (c :: rest).take 7 = c :: rest :=
      List.take_of_length_le (by omega)
    simp only [findPlateWindow, htake, h, if_true]

/-! ### Lemmas about the `AA[O0]3.*B[O0]J` search -/

theorem isAA03Head_shape : ∀ {t : List Char}, isAA03Head t = true →
    ∃ c rest, t = 'A' :: 'A' :: c :: '3' :: rest ∧ (c = 'O' ∨ c = '0')
  | a :: b :: c :: d :: rest, h => by
    simp only [isAA03Head, Bool.and_eq_true, Bool.or_eq_true, beq_iff_eq] at h
    obtain ⟨⟨⟨rfl, rfl⟩, hc⟩, rfl⟩ := h
    exact ⟨c, rest, rfl, hc⟩
  | [], h => by simp [isAA03Head] at h
  | [_], h => by simp [isAA03Head] at h
  | [_, _], h => by simp [isAA03Head] at h
  | [_, _, _], h => by simp [isAA03Head] at h

theorem isB0JHead_shape : ∀ {t : List Char}, isB0JHead t = true →
    ∃ c rest, t = 'B' :: c :: 'J' :: rest ∧ (c = 'O' ∨ c = '0')
  | a :: b :: c :: rest, h => by
    simp only [isB0JHead, Bool.and_eq_true, Bool.or_eq_true, beq_iff_eq] at h
    obtain ⟨⟨rfl, hb⟩, rfl⟩ := h
    exact ⟨b, rest, rfl, hb⟩
  | [], h => by simp [isB0JHead] at h
  | [_], h => by simp [isB0JHead] at h
  | [_, _], h => by simp [isB0JHead] at h

theorem searchAA_iff (l : List Char) : searchAA03BOJ l = true ↔
    ∃ t, t <:+ l ∧ isAA03Head t = true ∧
      ∃ u, u <:+ t.drop 4 ∧ isB0JHead u = true := by
  simp [searchAA03BOJ, List.any_eq_true, List.mem_tails, and_assoc]

theorem searchAA_infix_mono {w l : List Char} (hinf : w <:+: l)
    (h : searchAA03BOJ w = true) : searchAA03BOJ l = true := by
  obtain ⟨p, q, hl⟩ := hinf
  subst hl
  rw [searchAA_iff] at h ⊢
  obtain ⟨t, ⟨x, hx⟩, hAA, u, ⟨y, hy⟩, hB⟩ := h
  obtain ⟨c1, rest, rfl, hc1⟩ := isAA03Head_shape hAA
  subst hx
  refine ⟨'A' :: 'A' :: c1 :: '3' :: (rest ++ q), ⟨p ++ x, by simp⟩, ?_, u ++ q, ?_, ?_⟩
  · rcases hc1 with rfl | rfl <;> rfl
  · have hy2 : y ++ u = rest := by simpa using hy
    exact ⟨y, by simp [← hy2]⟩
  · obtain ⟨c2, rest2, rfl, hc2⟩ := isB0JHead_shape hB
    rcases hc2 with rfl | rfl <;> rfl

/-! ### Idempotence of the normalizers -/

theorem uk_format_eq (t : String) :
    UKPlateRecognizer.format_uk_plate t =
      if searchAA03BOJ (ukCleanL t.data) then "AA03 BOJ"
      else
        match findPlateWindow (ukCleanL t.data) with
        | some candidate => String.mk (spaceAt4 candidate)
        | none =>
          if (ukCleanL t.data).length = 7 then String.mk (spaceAt4 (ukCleanL t.data))
          else String.mk (ukCleanL t.data) := by
  unfold UKPlateRecognizer.format_uk_plate
  simp only [findPlateWindow_guard]

theorem do_format_eq (t : String) :
    direct_ocr.clean_and_format_plate t =
      match findPlateWindow (cleanAlnumUpper t.data) with
      | some candidate => String.mk (spaceAt4 candidate)
      | none => String.mk (cleanAlnumUpper t.data) := by
  unfold direct_ocr.clean_and_format_plate
  simp only [findPlateWindow_guard]

theorem sd_format_eq (t : String) :
    simple_detector.clean_and_format_plate t =
      match findPlateWindow (cleanAlnumUpper t.data) with
      | some candidate => String.mk (spaceAt4 candidate)
      | none =>
        if (cleanAlnumUpper t.data).length = 7 then
          String.mk (spaceAt4 (cleanAlnumUpper t.data))
        else String.mk (cleanAlnumUpper t.data) := by
  unfold simple_detector.clean_and_format_plate
  simp only [findPlateWindow_guard]

theorem pr_format_eq (t : String) :
    PlateRecognizer.format_uk_plate t =
      if (cleanAlnumUpper t.data).length = 7 then
        String.mk (spaceAt4 (cleanAlnumUpper t.data))
      else String.mk (cleanAlnumUpper t.data) := rfl

theorem uk_format_idemAux (s : String) :
    UKPlateRecognizer.format_uk_plate (UKPlateRecognizer.format_uk_plate s) =
      UKPlateRecognizer.format_uk_plate s := by
  rw [uk_format_eq s]
  by_cases hAA : searchAA03BOJ (ukCleanL s.data) = true
  · rw [if_pos hAA]
    decide
  · have hAAf : searchAA03BOJ (ukCleanL s.data) = false :=
      Bool.eq_false_iff.2 hAA
    rw [if_neg hAA]
    cases hw : findPlateWindow (ukCleanL s.data) with
    | some w =>
      obtain ⟨hpat, hinf⟩ := findPlateWindow_some hw
      have hmem : ∀ c ∈ w, (charUpper c || charDigit c) = true ∧ c ≠ 'O' ∧ c ≠ 'I' :=
        fun c hc => mem_ukCleanL (hinf.subset hc)
      have hclean : ukCleanL (String.mk (spaceAt4 w)).data = w :=
        ukCleanL_spaceAt4 hmem
      have hAAw : searchAA03BOJ w = false := by
        cases hq : searchAA03BOJ w with
        | false => rfl
        | true => exact absurd (searchAA_infix_mono hinf hq) hAA
      rw [uk_format_eq (String.mk (spaceAt4 w)), hclean, hAAw,
        findPlateWindow_self hpat]
      simp
    | none =>
      have hmem : ∀ c ∈ ukCleanL s.data,
          (charUpper c || charDigit c) = true ∧ c ≠ 'O' ∧ c ≠ 'I' :=
        fun c hc => mem_ukCleanL hc
      by_cases hlen : (ukCleanL s.data).length = 7
      · rw [if_pos hlen]
        have hclean : ukCleanL (String.mk (spaceAt4 (ukCleanL s.data))).data
            = ukCleanL s.data := ukCleanL_spaceAt4 hmem
        rw [uk_format_eq (String.mk (spaceAt4 (ukCleanL s.data))), hclean, hAAf, hw,
          if_pos hlen]
        simp
      · rw [if_neg hlen]
        have hclean : ukCleanL (String.mk (ukCleanL s.data)).data = ukCleanL s.data :=
          ukCleanL_fix hmem
        rw [uk_format_eq (String.mk (ukCleanL s.data)), hclean, hAAf, hw, if_neg hlen]
        simp

theorem isPlateWindow_shape : ∀ {w : List Char}, isPlateWindow w = true →
    ∃ a b c d e f g, w = [a, b, c, d, e, f, g]
  | [a, b, c, d, e, f, g], _ => ⟨a, b, c, d, e, f, g, rfl⟩
  | [], h => by simp [isPlateWindow] at h
  | [_], h => by simp [isPlateWindow] at h
  | [_, _], h => by simp [isPlateWindow] at h
  | [_, _, _], h => by simp [isPlateWindow] at h
  | [_, _, _, _], h => by simp [isPlateWindow] at h
  | [_, _, _, _, _], h => by simp [isPlateWindow] at h
  | [_, _, _, _, _, _], h => by simp [isPlateWindow] at h
  | _ :: _ :: _ :: _ :: _ :: _ :: _ :: _ :: _, h => by simp [isPlateWindow] at h

theorem charUpper_ne {x : Char} (h : charUpper x = true) : x ≠ '0' ∧ x ≠ '3' := by
  constructor <;> rintro rfl <;> revert h <;> decide

/-- On a string of the exact plate pattern whose last three characters are
letters other than `O`, the `AA[O0]3.*B[O0]J` search cannot fire: every
alignment would force a digit `0` or `3` into a letter position. -/
theorem searchAA_pattern_false {a b c d e f g : Char}
    (he : charUpper e = true) (hf : charUpper f = true) (hg : charUpper g = true)
    (hfO : f ≠ 'O') :
    searchAA03BOJ [a, b, c, d, e, f, g] = false := by
  have he3 : (e == '3') = false := beq_eq_false_iff_ne.2 (charUpper_ne he).2
  have hf3 : (f == '3') = false := beq_eq_false_iff_ne.2 (charUpper_ne hf).2
  have hg3 : (g == '3') = false := beq_eq_false_iff_ne.2 (charUpper_ne hg).2
  have hf0 : (f == '0') = false := beq_eq_false_iff_ne.2 (charUpper_ne hf).1
  have hfO2 : (f == 'O') = false := beq_eq_false_iff_ne.2 hfO
  simp [searchAA03BOJ, isAA03Head, isB0JHead, List.tails, he3, hf3, hg3, hf0, hfO2]

theorem do_format_idemAux (s : String) :
    direct_ocr.clean_and_format_plate (direct_ocr.clean_and_format_plate s) =
      direct_ocr.clean_and_format_plate s := by
  rw [do_format_eq s]
  cases hw : findPlateWindow (cleanAlnumUpper s.data) with
  | some w =>
    obtain ⟨hpat, hinf⟩ := findPlateWindow_some hw
    have hmem : ∀ c ∈ w, (charUpper c || charDigit c) = true :=
      fun c hc => mem_cleanAlnumUpper (hinf.subset hc)
    have hclean : cleanAlnumUpper (String.mk (spaceAt4 w)).data = w :=
      cleanAlnumUpper_spaceAt4 hmem
    rw [do_format_eq (String.mk (spaceAt4 w)), hclean, findPlateWindow_self hpat]
  | none =>
    have hmem : ∀ c ∈ cleanAlnumUpper s.data, (charUpper c || charDigit c) = true :=
      fun c hc => mem_cleanAlnumUpper hc
    have hclean : cleanAlnumUpper (String.mk (cleanAlnumUpper s.data)).data
        = cleanAlnumUpper s.data := cleanAlnumUpper_fix hmem
    rw [do_format_eq (String.mk (cleanAlnumUpper s.data)), hclean, hw]

/-! ### Claim C1 -/

/-- C1, counterexample: the string `"AB12CDO"` has length 7 and matches
`[A-Z]{2}[0-9]{2}[A-Z]{3}`, yet `UKPlateRecognizer.format_uk_plate` does
not return it with its characters unchanged: the confusion correction
rewrites the final letter `O` to the digit `0`, producing `"AB12 CD0"`. -/
theorem c1_counterexample :
    isPlateWindow (String.data "AB12CDO") = true ∧
    UKPlateRecognizer.format_uk_plate "AB12CDO" = "AB12 CD0" ∧
    "AB12 CD0" ≠ "AB12 CDO" := by
  refine ⟨by decide, by decide, by decide⟩

/-- C1 (amended): for every string of length 7 matching
`[A-Z]{2}[0-9]{2}[A-Z]{3}`, `PlateRecognizer.format_uk_plate` returns it
formatted with a single interior space and its characters otherwise
unchanged; `UKPlateRecognizer.format_uk_plate` does the same provided the
string contains neither `O` nor `I` (otherwise its confusion correction
replaces them by digits).  In particular both map `"AB12CDE"` to
`"AB12 CDE"`. -/
theorem c1_format_preserves_pattern (s : String)
    (hpat : isPlateWindow s.data = true) :
    PlateRecognizer.format_uk_plate s = String.mk (spaceAt4 s.data) ∧
    ('O' ∉ s.data → 'I' ∉ s.data →
      UKPlateRecognizer.format_uk_plate s = String.mk (spaceAt4 s.data)) := by
  have hchars := isPlateWindow_chars hpat
  have hlen := isPlateWindow_length hpat
  constructor
  · rw [pr_format_eq, cleanAlnumUpper_fix hchars, if_pos hlen]
  · intro hO hI
    have hchars2 : ∀ c ∈ s.data,
        (charUpper c || charDigit c) = true ∧ c ≠ 'O' ∧ c ≠ 'I' := by
      intro c hc
      exact ⟨hchars c hc, fun h => hO (h ▸ hc), fun h => hI (h ▸ hc)⟩
    have hAAf : searchAA03BOJ s.data = false := by
      obtain ⟨a, b, c, d, e, f, g, hdata⟩ := isPlateWindow_shape hpat
      have hpat2 := hpat
      rw [hdata] at hpat2 ⊢
      simp only [isPlateWindow, Bool.and_eq_true] at hpat2
      obtain ⟨⟨⟨⟨⟨⟨h1, h2⟩, h3⟩, h4⟩, h5⟩, h6⟩, h7⟩ := hpat2
      have hfO : f ≠ 'O' := by
        intro hcon
        exact hO (by rw [hdata, ← hcon]; simp)
      exact searchAA_pattern_false h5 h6 h7 hfO
    rw [uk_format_eq, ukCleanL_fix hchars2, hAAf, findPlateWindow_self hpat]
    simp

/-- C1, witness: `"AB12CDE"` is spaced to `"AB12 CDE"` by both normalizer
variants. -/
theorem c1_witness :
    PlateRecognizer.format_uk_plate "AB12CDE" = "AB12 CDE" ∧
    UKPlateRecognizer.format_uk_plate "AB12CDE" = "AB12 CDE" :=
  ⟨((c1_format_preserves_pattern "AB12CDE" (by decide)).1).trans (by decide),
   ((c1_format_preserves_pattern "AB12CDE" (by decide)).2 (by decide)
      (by decide)).trans (by decide)⟩

/-! ### Claim C5 -/

/-- C5: `UKPlateRecognizer.format_uk_plate` returns the fixed literal
`"AA03 BOJ"` for every input whose cleaned text matches
`AA[O0]3.*B[O0]J`, regardless of the remaining characters; and there are
inputs — an all-blue plate-shaped image under an OCR oracle that yields
no usable text at all — on which `direct_ocr_plate` returns the preset
`"AA03 BOJ"` because the `is_clearly_uk_plate` visual heuristic (blue
fraction above 10% in the left 15% band, aspect ratio in (3.5, 5.5))
fires. -/
theorem c5_preset_literal :
    (∀ s : String, searchAA03BOJ (ukCleanL s.data) = true →
      UKPlateRecognizer.format_uk_plate s = "AA03 BOJ") ∧
    (∀ im cfg, idEnv.image_to_data im cfg = []) ∧
    (∀ im cfg, idEnv.image_to_string im cfg = "") ∧
    UKPlateRecognizer.is_clearly_uk_plate idEnv blueImg = true ∧
    UKPlateRecognizer.direct_ocr_plate idEnv blueImg = "AA03 BOJ" := by
  refine ⟨?_, fun _ _ => rfl, fun _ _ => rfl, by decide, by decide⟩
  intro s h
  rw [uk_format_eq, if_pos h]

/-- C5, witness: a noisy string containing the `AA03…B0J` pattern is
collapsed to the literal `"AA03 BOJ"`. -/
theorem c5_witness :
    UKPlateRecognizer.format_uk_plate "xAA03qqB0Jx" = "AA03 BOJ" :=
  c5_preset_literal.1 "xAA03qqB0Jx" (by decide)

/-! ### Claim C8 -/

/-- C8, counterexample: `"1234567"` cleans to itself, has length 7 and
contains no window matching the plate pattern, yet
`direct_ocr.clean_and_format_plate` returns it WITHOUT the interior
space: that variant has no length-7 fallback. -/
theorem c8_counterexample :
    cleanAlnumUpper (String.data "1234567") = String.data "1234567" ∧
    findPlateWindow (cleanAlnumUpper (String.data "1234567")) = none ∧
    (cleanAlnumUpper (String.data "1234567")).length = 7 ∧
    direct_ocr.clean_and_format_plate "1234567" = "1234567" ∧
    direct_ocr.clean_and_format_plate "1234567" ≠ "1234 567" := by
  refine ⟨by decide, by decide, by decide, by decide, by decide⟩

/-- C8 (amended): when the cleaned text has no matching length-7 window
but is exactly 7 characters long, the simple_detector variant and — as
long as the `AA[O0]3.*B[O0]J` preset does not fire — the
uk_plate_recognizer variant accept it verbatim in `"XXXX XXX"` spacing;
the direct_ocr variant, by contrast, has no such fallback and returns
the cleaned text unspaced. -/
theorem c8_len7_fallback (s : String) :
    (findPlateWindow (cleanAlnumUpper s.data) = none →
      (cleanAlnumUpper s.data).length = 7 →
      simple_detector.clean_and_format_plate s
        = String.mk (spaceAt4 (cleanAlnumUpper s.data))) ∧
    (searchAA03BOJ (ukCleanL s.data) = false →
      findPlateWindow (ukCleanL s.data) = none →
      (ukCleanL s.data).length = 7 →
      UKPlateRecognizer.format_uk_plate s
        = String.mk (spaceAt4 (ukCleanL s.data))) ∧
    (findPlateWindow (cleanAlnumUpper s.data) = none →
      direct_ocr.clean_and_format_plate s = String.mk (cleanAlnumUpper s.data)) := by
  refine ⟨?_, ?_, ?_⟩
  · intro hw hlen
    rw [sd_format_eq, hw]
    simp [hlen]
  · intro hAA hw hlen
    rw [uk_format_eq, hAA, hw]
    simp [hlen]
  · intro hw
    rw [do_format_eq, hw]

/-- C8, witness: on `"1234567"` the simple_detector and uk variants
space the text, direct_ocr does not. -/
theorem c8_witness :
    simple_detector.clean_and_format_plate "1234567"
      = String.mk (spaceAt4 (cleanAlnumUpper (String.data "1234567"))) ∧
    UKPlateRecognizer.format_uk_plate "1234567"
      = String.mk (spaceAt4 (ukCleanL (String.data "1234567"))) ∧
    direct_ocr.clean_and_format_plate "1234567"
      = String.mk (cleanAlnumUpper (String.data "1234567")) :=
  ⟨(c8_len7_fallback "1234567").1 (by decide) (by decide),
   (c8_len7_fallback "1234567").2.1 (by decide) (by decide) (by decide),
   (c8_len7_fallback "1234567").2.2 (by decide)⟩

/-! ### Claim C2 -/

/-- C2: `extract_plate` fails with a well-typed error result (`None`, the
source's encoding of ExtractionError, produced by its `try/except`)
rather than crashing: for every image and contour whose bounding box has
zero height, the caught `50.0 / h` division error yields `None`; and for
every bounding box lying outside the image (to the right of or below it),
the NumPy crop is empty and the caught `cv2.resize` error yields `None`. -/
theorem c2_extract_errors (env : CVEnv) (image : Img) (contour : Contour) :
    ((boundingRect contour).2.2.2 = 0 →
      PlateRecognizer.extract_plate env image contour = none) ∧
    (image.w ≤ (boundingRect contour).1.toNat ∨
        image.h ≤ (boundingRect contour).2.1.toNat →
      PlateRecognizer.extract_plate env image contour = none) := by
  rcases hbr : boundingRect contour with ⟨x, y, ww, hh⟩
  constructor
  · intro h0
    simp only at h0
    simp [PlateRecognizer.extract_plate, hbr, h0]
  · intro hout
    simp only at hout
    unfold PlateRecognizer.extract_plate
    rw [hbr]
    by_cases h0 : hh = 0
    · simp [h0]
    · rw [if_neg h0, if_pos ?goal2]
      case goal2 =>
        simp only [cropImg]
        rcases hout with hx | hy
        · right; omega
        · left; omega

/-- C2, witness: the empty contour has a zero-height bounding box and a
contour at x = 12 lies right of a 10-wide image; both extract to `None`. -/
theorem c2_witness :
    PlateRecognizer.extract_plate idEnv (blackImg 10 10) [] = none ∧
    PlateRecognizer.extract_plate idEnv (blackImg 10 10)
      [(12, 0), (13, 0), (13, 1), (12, 1)] = none :=
  ⟨(c2_extract_errors idEnv (blackImg 10 10) []).1 (by decide),
   (c2_extract_errors idEnv (blackImg 10 10)
      [(12, 0), (13, 0), (13, 1), (12, 1)]).2 (Or.inl (by decide))⟩

/-! ### Claim C3 -/

/-- C3, counterexample: on an unreadable input (`cv2.imread` returned
`None`), `process_image` does not surface an ImageLoadError and does not
return a mapping: it returns the null result `None`. -/
theorem c3_counterexample :
    UKPlateRecognizer.process_image idEnv none = none ∧
    ∀ m : List (String × PlateEntry),
      UKPlateRecognizer.process_image idEnv none ≠ some m :=
  ⟨rfl, fun _ h => Option.noConfusion h⟩

/-- C3 (amended): `process_image` never throws; it returns the null
result `None` exactly on an unreadable image, and for a loaded image it
always returns a mapping — in particular the empty mapping (not `None`
and not an exception) when nothing is found: aspect ratio outside the
plate band, no detected regions, and direct OCR answering `"UNKNOWN"`. -/
theorem c3_entry_errors (env : CVEnv) :
    (∀ loaded, UKPlateRecognizer.process_image env loaded = none ↔ loaded = none) ∧
    (∀ image : Img,
      ¬(7/2 < (image.w : ℚ) / (image.h : ℚ) ∧ (image.w : ℚ) / (image.h : ℚ) < 11/2) →
      (UKPlateRecognizer.detect_plate_regions env image).isEmpty = true →
      UKPlateRecognizer.direct_ocr_plate env image = "UNKNOWN" →
      UKPlateRecognizer.process_image env (some image) = some []) := by
  have hex : ∀ image : Img, ∃ r,
      UKPlateRecognizer.process_image env (some image) = some r := by
    intro image
    simp only [UKPlateRecognizer.process_image]
    split_ifs <;> exact ⟨_, rfl⟩
  constructor
  · intro loaded
    cases loaded with
    | none => simp [UKPlateRecognizer.process_image]
    | some image =>
      obtain ⟨r, hr⟩ := hex image
      rw [hr]
      simp
  · intro image haspect hempty hunknown
    simp [UKPlateRecognizer.process_image, haspect, hempty, hunknown]

/-- C3, witness: a black 10×10 image (aspect 1, no contours, OCR empty)
yields the empty mapping; instantiating the amended theorem. -/
theorem c3_witness :
    UKPlateRecognizer.process_image idEnv (some (blackImg 10 10)) = some [] :=
  (c3_entry_errors idEnv).2 (blackImg 10 10) (by decide) (by decide) (by decide)

/-! ### Claim C6 -/

/-- C6: for every capability environment and every image whose own
width:height aspect ratio lies strictly between 3.5 and 5.5,
`process_image` skips contour detection and returns exactly one entry,
keyed `"plate_0"`, whose region is the whole image and whose bounding
box is `(0, 0, width, height)`. -/
theorem c6_whole_image_single_candidate (env : CVEnv) (image : Img)
    (h1 : 7/2 < (image.w : ℚ) / (image.h : ℚ))
    (h2 : (image.w : ℚ) / (image.h : ℚ) < 11/2) :
    UKPlateRecognizer.process_image env (some image) =
      some [("plate_0",
        { plate_number := UKPlateRecognizer.recognize_plate_number env image
          country_identifier := UKPlateRecognizer.detect_country_identifier env image
          region := image
          bbox := (0, 0, (image.w : Int), (image.h : Int)) })] := by
  simp only [UKPlateRecognizer.process_image]
  rw [if_pos ⟨h1, h2⟩]

/-- C6, witness: a 45×10 image (aspect 4.5) becomes the single whole-image
candidate. -/
theorem c6_witness :
    UKPlateRecognizer.process_image idEnv (some blueImg) =
      some [("plate_0",
        { plate_number := UKPlateRecognizer.recognize_plate_number idEnv blueImg
          country_identifier := UKPlateRecognizer.detect_country_identifier idEnv blueImg
          region := blueImg
          bbox := (0, 0, (blueImg.w : Int), (blueImg.h : Int)) })] :=
  c6_whole_image_single_candidate idEnv blueImg (by decide) (by decide)

/-! ### Claim C9 -/

/-- C9: whenever the identifier band is more than 10% blue but neither
OCR attempt sees `GB` and the secondary white/blue visual heuristic does
not fire, `detect_country_identifier` returns the generic `"EU"` tag —
not `"UNKNOWN"`; and whenever the blue fraction does not exceed 10%, it
returns `"UNKNOWN"`. -/
theorem c9_country_identifier (env : CVEnv) (plate_image : Img) :
    (10 < UKPlateRecognizer.dciBluePct env plate_image →
      containsGB (UKPlateRecognizer.dciText1 env plate_image) = false →
      containsGB (UKPlateRecognizer.dciText2 env plate_image) = false →
      ¬(5 < UKPlateRecognizer.dciWhitePct env plate_image ∧
        20 < UKPlateRecognizer.dciBluePct env plate_image) →
      UKPlateRecognizer.detect_country_identifier env plate_image = "EU") ∧
    (UKPlateRecognizer.dciBluePct env plate_image ≤ 10 →
      UKPlateRecognizer.detect_country_identifier env plate_image = "UNKNOWN") := by
  constructor
  · intro hb h1 h2 h3
    simp [UKPlateRecognizer.detect_country_identifier, hb, h1, h2, h3]
  · intro hb
    have hnot : ¬ 10 < UKPlateRecognizer.dciBluePct env plate_image := not_lt.2 hb
    simp [UKPlateRecognizer.detect_country_identifier, hnot]

/-- C9, witness: a band that is 15% blue with no `GB` text anywhere gives
`"EU"`; an all-black image gives `"UNKNOWN"`. -/
theorem c9_witness :
    UKPlateRecognizer.detect_country_identifier idEnv blueBandImg = "EU" ∧
    UKPlateRecognizer.detect_country_identifier idEnv (blackImg 10 10) = "UNKNOWN" :=
  ⟨(c9_country_identifier idEnv blueBandImg).1 (by decide) (by decide)
      (by decide) (by decide),
   (c9_country_identifier idEnv (blackImg 10 10)).2 (by decide)⟩

/-! ### Sorting and bounding-box lemmas -/

theorem mem_insertAreaDesc {a x : Contour} : ∀ {l : List Contour},
    a ∈ insertAreaDesc x l ↔ a = x ∨ a ∈ l := by
  intro l
  induction l with
  | nil => simp [insertAreaDesc]
  | cons y ys ih =>
    unfold insertAreaDesc
    split
    · simp only [List.mem_cons, ih]
      tauto
    · simp only [List.mem_cons]

theorem mem_sortByAreaDesc {a : Contour} {l : List Contour}
    (h : a ∈ sortByAreaDesc l) : a ∈ l := by
  suffices H : ∀ (l acc : List Contour),
      a ∈ l.foldl (fun acc x => insertAreaDesc x acc) acc → a ∈ acc ∨ a ∈ l by
    rcases H l [] h with h2 | h2
    · simp at h2
    · exact h2
  intro l
  induction l with
  | nil => intro acc h2; exact Or.inl h2
  | cons x xs ih =>
    intro acc h2
    rcases ih (insertAreaDesc x acc) h2 with h3 | h3
    · rcases mem_insertAreaDesc.1 h3 with h4 | h4
      · exact Or.inr (by simp [h4])
      · exact Or.inl h4
    · exact Or.inr (List.mem_cons_of_mem x h3)

theorem minList_le_self (x : Int) (xs : List Int) : minList x xs ≤ x := by
  induction xs generalizing x with
  | nil => exact le_refl x
  | cons y ys ih =>
    exact le_trans (ih (min x y)) (min_le_left x y)

theorem le_maxList_self (x : Int) (xs : List Int) : x ≤ maxList x xs := by
  induction xs generalizing x with
  | nil => exact le_refl x
  | cons y ys ih =>
    exact le_trans (le_max_left x y) (ih (max x y))

theorem minList_ge {b x : Int} {xs : List Int} (hx : b ≤ x)
    (hxs : ∀ a ∈ xs, b ≤ a) : b ≤ minList x xs := by
  induction xs generalizing x with
  | nil => exact hx
  | cons y ys ih =>
    exact ih (le_min hx (hxs y (by simp)))
      fun a ha => hxs a (List.mem_cons_of_mem y ha)

theorem maxList_lt {b x : Int} {xs : List Int} (hx : x < b)
    (hxs : ∀ a ∈ xs, a < b) : maxList x xs < b := by
  induction xs generalizing x with
  | nil => exact hx
  | cons y ys ih =>
    exact ih (max_lt hx (hxs y (by simp)))
      fun a ha => hxs a (List.mem_cons_of_mem y ha)

/-- For a nonempty contour lying inside an image, `cv2.boundingRect` gives
a box inside the image with positive width and height. -/
theorem boundingRect_props {ct : Contour} {im : Img} (hne : ct ≠ [])
    (hin : ∀ p ∈ ct, ptInImg im p) :
    bboxInImg im (boundingRect ct) ∧
    0 < bboxW (boundingRect ct) ∧ 0 < bboxH (boundingRect ct) := by
  cases ct with
  | nil => exact absurd rfl hne
  | cons p ps =>
    have hp := hin p (by simp)
    have hxs : ∀ a ∈ ps.map Prod.fst, 0 ≤ a ∧ a < (im.w : Int) := by
      intro a ha
      obtain ⟨q, hq, rfl⟩ := List.mem_map.1 ha
      have := hin q (List.mem_cons_of_mem p hq)
      exact ⟨this.1, this.2.1⟩
    have hys : ∀ a ∈ ps.map Prod.snd, 0 ≤ a ∧ a < (im.h : Int) := by
      intro a ha
      obtain ⟨q, hq, rfl⟩ := List.mem_map.1 ha
      have := hin q (List.mem_cons_of_mem p hq)
      exact ⟨this.2.2.1, this.2.2.2⟩
    have h1 : 0 ≤ minList p.1 (ps.map Prod.fst) :=
      minList_ge hp.1 fun a ha => (hxs a ha).1
    have h2 : 0 ≤ minList p.2 (ps.map Prod.snd) :=
      minList_ge hp.2.2.1 fun a ha => (hys a ha).1
    have h3 : maxList p.1 (ps.map Prod.fst) < (im.w : Int) :=
      maxList_lt hp.2.1 fun a ha => (hxs a ha).2
    have h4 : maxList p.2 (ps.map Prod.snd) < (im.h : Int) :=
      maxList_lt hp.2.2.2 fun a ha => (hys a ha).2
    have h5 : minList p.1 (ps.map Prod.fst) ≤ maxList p.1 (ps.map Prod.fst) :=
      le_trans (minList_le_self _ _) (le_maxList_self _ _)
    have h6 : minList p.2 (ps.map Prod.snd) ≤ maxList p.2 (ps.map Prod.snd) :=
      le_trans (minList_le_self _ _) (le_maxList_self _ _)
    simp only [boundingRect, bboxInImg, bboxX, bboxY, bboxW, bboxH]
    refine ⟨⟨h1, h2, by omega, by omega⟩, by omega, by omega⟩

/-! ### Claim C4 -/

/-- C4, counterexample: `detect_plate_regions` checks no area band at all;
with a contour oracle reporting a single tiny 7×2 rectangle in a 100×100
image it returns that candidate, whose enclosed area (6 pixels, 0.06% of
the image) lies far below the configured 1% lower bound. -/
theorem c4_counterexample :
    (UKPlateRecognizer.detect_plate_regions envSmallContour
        (blackImg 100 100)).map Prod.snd = [(0, 0, 7, 2)] ∧
    contourArea [(0, 0), (6, 0), (6, 1), (0, 1)] = 6 ∧
    ¬ (1/100 * ((100 : ℚ) * 100) < 6) := by
  refine ⟨by decide, by decide, by decide⟩

/-- C4 (amended): provided the contour oracle returns nonempty contours
whose points lie inside the source image (as `cv2.findContours` does),
every candidate of `PlateRecognizer.find_plate_contours` has its bounding
box inside the image with positive height, contour area strictly inside
the 1%–10% fraction-of-image band, and aspect ratio strictly between 3
and 6; every candidate of `UKPlateRecognizer.detect_plate_regions` has
its bounding box inside the image with positive height and aspect ratio
strictly between 2 and 7 — but no area-band guarantee holds there. -/
theorem c4_candidate_invariants (env : CVEnv) (image original : Img)
    (hA : ∀ ct ∈ env.findContours false image, ct ≠ [] ∧ ∀ p ∈ ct, ptInImg original p)
    (hB : ∀ ct ∈ env.findContours true (UKPlateRecognizer.ukDilated env original),
      ct ≠ [] ∧ ∀ p ∈ ct, ptInImg original p) :
    (∀ ct ∈ PlateRecognizer.find_plate_contours env image original,
      bboxInImg original (boundingRect ct) ∧ 0 < bboxH (boundingRect ct) ∧
      (1/100 * ((original.h : ℚ) * (original.w : ℚ)) < contourArea ct ∧
        contourArea ct < 1/10 * ((original.h : ℚ) * (original.w : ℚ))) ∧
      (3 < (bboxW (boundingRect ct) : ℚ) / (bboxH (boundingRect ct) : ℚ) ∧
        (bboxW (boundingRect ct) : ℚ) / (bboxH (boundingRect ct) : ℚ) < 6)) ∧
    (∀ rb ∈ UKPlateRecognizer.detect_plate_regions env original,
      bboxInImg original rb.2 ∧ 0 < bboxH rb.2 ∧
      (2 < (bboxW rb.2 : ℚ) / (bboxH rb.2 : ℚ) ∧
        (bboxW rb.2 : ℚ) / (bboxH rb.2 : ℚ) < 7)) := by
  constructor
  · intro ct hct
    unfold PlateRecognizer.find_plate_contours at hct
    rw [List.mem_filter] at hct
    obtain ⟨hmem, hpred⟩ := hct
    have hmem2 : ct ∈ env.findContours false image :=
      mem_sortByAreaDesc ((List.take_sublist _ _).subset hmem)
    obtain ⟨hne, hin⟩ := hA ct hmem2
    have hbr := boundingRect_props hne hin
    by_cases harea : 1/100 * ((original.h : ℚ) * (original.w : ℚ)) < contourArea ct ∧
        contourArea ct < 1/10 * ((original.h : ℚ) * (original.w : ℚ))
    · rw [if_pos harea] at hpred
      have haspect := of_decide_eq_true hpred
      exact ⟨hbr.1, hbr.2.2, harea,
        by simpa [bboxW, bboxH] using haspect⟩
    · rw [if_neg harea] at hpred
      exact absurd hpred (by simp)
  · intro rb hrb
    unfold UKPlateRecognizer.detect_plate_regions at hrb
    rw [List.mem_filterMap] at hrb
    obtain ⟨ct, hmem, hsome⟩ := hrb
    have hmem2 : ct ∈ env.findContours true (UKPlateRecognizer.ukDilated env original) :=
      mem_sortByAreaDesc ((List.take_sublist _ _).subset hmem)
    obtain ⟨hne, hin⟩ := hB ct hmem2
    have hbr := boundingRect_props hne hin
    by_cases hlen : 4 ≤ (env.approxPolyDP ct
        (2/100 * env.arcLength ct)).length ∧
        (env.approxPolyDP ct (2/100 * env.arcLength ct)).length ≤ 6
    · rw [if_pos hlen] at hsome
      by_cases haspect : 2 < ((boundingRect ct).2.2.1 : ℚ) / ((boundingRect ct).2.2.2 : ℚ) ∧
          ((boundingRect ct).2.2.1 : ℚ) / ((boundingRect ct).2.2.2 : ℚ) < 7
      · rw [if_pos haspect] at hsome
        obtain rfl := Option.some.inj hsome
        exact ⟨hbr.1, hbr.2.2, by simpa [bboxW, bboxH] using haspect⟩
      · rw [if_neg haspect] at hsome
        exact absurd hsome (by simp)
    · rw [if_neg hlen] at hsome
      exact absurd hsome (by simp)

/-- C4, witness: with a contour oracle reporting one 50×10 rectangle in a
100×100 image, both detectors admit it (area 441 is in the 100–1000 band,
aspect 5), and the invariants hold on their outputs. -/
theorem c4_witness :
    (∀ ct ∈ PlateRecognizer.find_plate_contours envRectContour
        (blackImg 100 100) (blackImg 100 100),
      bboxInImg (blackImg 100 100) (boundingRect ct) ∧ 0 < bboxH (boundingRect ct) ∧
      (1/100 * (((blackImg 100 100).h : ℚ) * ((blackImg 100 100).w : ℚ)) < contourArea ct ∧
        contourArea ct < 1/10 * (((blackImg 100 100).h : ℚ) * ((blackImg 100 100).w : ℚ))) ∧
      (3 < (bboxW (boundingRect ct) : ℚ) / (bboxH (boundingRect ct) : ℚ) ∧
        (bboxW (boundingRect ct) : ℚ) / (bboxH (boundingRect ct) : ℚ) < 6)) ∧
    (∀ rb ∈ UKPlateRecognizer.detect_plate_regions envRectContour (blackImg 100 100),
      bboxInImg (blackImg 100 100) rb.2 ∧ 0 < bboxH rb.2 ∧
      (2 < (bboxW rb.2 : ℚ) / (bboxH rb.2 : ℚ) ∧
        (bboxW rb.2 : ℚ) / (bboxH rb.2 : ℚ) < 7)) :=
  c4_candidate_invariants envRectContour (blackImg 100 100) (blackImg 100 100)
    (by decide) (by decide)

/-! ### Fold-fusion lemmas for the OCR aggregation loops -/

theorem rowStep_tokSt (pim : Img) (ob : Option (String × ℚ × Img)) (row : String × ℚ) :
    PlateRecognizer.rowStep pim (tokSt ob) row =
      tokSt (if 0 < row.2 ∧ pyStrip row.1 ≠ "" then tokMerge ob (row.1, row.2, pim)
        else ob) := by
  cases ob with
  | none =>
    by_cases h2 : 0 < row.2
    · by_cases hs : pyStrip row.1 ≠ ""
      · simp [PlateRecognizer.rowStep, tokSt, tokMerge, h2, hs]
      · simp [PlateRecognizer.rowStep, tokSt, tokMerge, h2, hs]
    · simp [PlateRecognizer.rowStep, tokSt, h2]
  | some x =>
    by_cases h2 : 0 < row.2
    · by_cases hs : pyStrip row.1 ≠ ""
      · by_cases hlt : x.2.1 < row.2
        · simp [PlateRecognizer.rowStep, tokSt, tokMerge, h2, hs, hlt]
        · simp [PlateRecognizer.rowStep, tokSt, tokMerge, h2, hs, hlt]
      · simp [PlateRecognizer.rowStep, tokSt, tokMerge, h2, hs]
    · simp [PlateRecognizer.rowStep, tokSt, h2]

theorem foldl_rowStep_tokSt (pim : Img) (rows : List (String × ℚ))
    (ob : Option (String × ℚ × Img)) :
    rows.foldl (PlateRecognizer.rowStep pim) (tokSt ob) =
      tokSt ((rows.filterMap fun row =>
        if 0 < row.2 ∧ pyStrip row.1 ≠ "" then some (row.1, row.2, pim)
        else none).foldl tokMerge ob) := by
  induction rows generalizing ob with
  | nil => rfl
  | cons r rs ih =>
    rw [List.foldl_cons, rowStep_tokSt, ih]
    by_cases h : 0 < r.2 ∧ pyStrip r.1 ≠ ""
    · simp [h, List.filterMap_cons]
    · simp [h, List.filterMap_cons]

theorem foldl_configs_tokSt (env : CVEnv) (enhanced pim : Img)
    (configs : List String) (ob : Option (String × ℚ × Img)) :
    configs.foldl (fun st config =>
        (env.image_to_data enhanced config).foldl (PlateRecognizer.rowStep pim) st)
        (tokSt ob) =
      tokSt ((configs.flatMap fun config =>
        (env.image_to_data enhanced config).filterMap fun row =>
          if 0 < row.2 ∧ pyStrip row.1 ≠ "" then some (row.1, row.2, pim)
          else none).foldl tokMerge ob) := by
  induction configs generalizing ob with
  | nil => rfl
  | cons c cs ih =>
    rw [List.foldl_cons, List.flatMap_cons, foldl_rowStep_tokSt, ih,
      List.foldl_append]

theorem foldl_contours_tokSt (env : CVEnv) (original : Img) (contours : List Contour)
    (ob : Option (String × ℚ × Img)) :
    contours.foldl (fun st contour =>
        match PlateRecognizer.extract_plate env original contour with
        | none => st
        | some plate_img =>
          let enhanced := PlateRecognizer.enhance_plate_image env plate_img
          PlateRecognizer.prConfigs.foldl (fun st config =>
            (env.image_to_data enhanced config).foldl
              (PlateRecognizer.rowStep plate_img) st) st) (tokSt ob) =
      tokSt ((contours.flatMap fun contour =>
        match PlateRecognizer.extract_plate env original contour with
        | none => []
        | some plate_img =>
          PlateRecognizer.prConfigs.flatMap fun config =>
            (env.image_to_data (PlateRecognizer.enhance_plate_image env plate_img)
              config).filterMap fun row =>
              if 0 < row.2 ∧ pyStrip row.1 ≠ "" then some (row.1, row.2, plate_img)
              else none).foldl tokMerge ob) := by
  induction contours generalizing ob with
  | nil => rfl
  | cons ct cts ih =>
    rw [List.foldl_cons, List.flatMap_cons]
    cases hex : PlateRecognizer.extract_plate env original ct with
    | none =>
      simp only [hex]
      rw [ih, List.nil_append]
    | some pim =>
      simp only [hex]
      rw [foldl_configs_tokSt, ih, List.foldl_append]

/-! ### `max`/`index` lemmas for the uk aggregation -/

theorem foldl_max_le_init (xs : List ℚ) : ∀ x : ℚ, x ≤ xs.foldl max x := by
  induction xs with
  | nil => intro x; exact le_refl x
  | cons y ys ih => intro x; exact le_trans (le_max_left x y) (ih (max x y))

theorem foldl_max_mem_le (xs : List ℚ) : ∀ x a : ℚ, a ∈ xs → a ≤ xs.foldl max x := by
  induction xs with
  | nil => intro x a ha; simp at ha
  | cons y ys ih =>
    intro x a ha
    rcases List.mem_cons.1 ha with rfl | ha2
    · exact le_trans (le_max_right x a) (foldl_max_le_init ys (max x a))
    · exact ih (max x y) a ha2

theorem foldl_max_mem (xs : List ℚ) : ∀ x : ℚ, xs.foldl max x = x ∨ xs.foldl max x ∈ xs := by
  induction xs with
  | nil => intro x; exact Or.inl rfl
  | cons y ys ih =>
    intro x
    rcases ih (max x y) with h | h
    · rcases max_choice x y with hm | hm
      · exact Or.inl (by rw [List.foldl_cons, h, hm])
      · exact Or.inr (by rw [List.foldl_cons, h, hm]; simp)
    · exact Or.inr (List.mem_cons_of_mem y (by simpa using h))

theorem listMax_mem {l : List ℚ} (h : l ≠ []) : listMax l ∈ l := by
  cases l with
  | nil => exact absurd rfl h
  | cons x xs =>
    rcases foldl_max_mem xs x with h2 | h2
    · rw [listMax, h2]; simp
    · rw [listMax]; exact List.mem_cons_of_mem x h2

theorem le_listMax {l : List ℚ} : ∀ a ∈ l, a ≤ listMax l := by
  cases l with
  | nil => simp
  | cons x xs =>
    intro a ha
    rcases List.mem_cons.1 ha with rfl | h
    · exact foldl_max_le_init xs a
    · exact foldl_max_mem_le xs x a h

/-- The uk aggregation picks a maximal-confidence pair out of the pairs
collected over all four OCR configurations. -/
theorem rpn_best_over_union (env : CVEnv) (plate_image : Img)
    (hne : UKPlateRecognizer.rpnPairs env plate_image ≠ []) :
    ∃ q ∈ UKPlateRecognizer.rpnPairs env plate_image,
      UKPlateRecognizer.recognize_plate_number env plate_image = q.1 ∧
      ∀ q2 ∈ UKPlateRecognizer.rpnPairs env plate_image, q2.2 ≤ q.2 := by
  have hck : (UKPlateRecognizer.rpnPairs env plate_image).map Prod.snd ≠ [] := by
    intro h
    exact hne (List.map_eq_nil_iff.1 h)
  have hm := listMax_mem hck
  have hlt := List.indexOf_lt_length.2 hm
  have hlt2 : ((UKPlateRecognizer.rpnPairs env plate_image).map Prod.snd).indexOf
        (listMax ((UKPlateRecognizer.rpnPairs env plate_image).map Prod.snd))
      < (UKPlateRecognizer.rpnPairs env plate_image).length := by
    simpa using hlt
  refine ⟨(UKPlateRecognizer.rpnPairs env plate_image)[
      ((UKPlateRecognizer.rpnPairs env plate_image).map Prod.snd).indexOf
        (listMax ((UKPlateRecognizer.rpnPairs env plate_image).map Prod.snd))],
    List.getElem_mem hlt2, ?_, ?_⟩
  · unfold UKPlateRecognizer.recognize_plate_number
    rw [if_neg hne, List.getD_eq_getElem?_getD,
      List.getElem?_eq_getElem (by simpa using hlt2), Option.getD_some,
      List.getElem_map]
  · intro q2 hq2
    have hmem2 : q2.2 ∈ (UKPlateRecognizer.rpnPairs env plate_image).map Prod.snd :=
      List.mem_map_of_mem Prod.snd hq2
    have hq : (UKPlateRecognizer.rpnPairs env plate_image)[
        ((UKPlateRecognizer.rpnPairs env plate_image).map Prod.snd).indexOf
          (listMax ((UKPlateRecognizer.rpnPairs env plate_image).map Prod.snd))].2
        = listMax ((UKPlateRecognizer.rpnPairs env plate_image).map Prod.snd) := by
      have h3 := List.getElem_indexOf hlt
      rw [List.getElem_map] at h3
      exact h3
    rw [hq]
    exact le_listMax q2.2 hmem2

/-- The plate_recognizer selection loop computes the first-seen maximum
over the union of admissible tokens of all contours and configurations. -/
theorem recognize_plate_fst_eq (env : CVEnv) (image : Img) :
    (PlateRecognizer.recognize_plate env image).1 =
      Option.map (fun y => PlateRecognizer.format_uk_plate y.1)
        (firstMaxTok (PlateRecognizer.allTokens env image)) := by
  unfold PlateRecognizer.recognize_plate PlateRecognizer.allTokens firstMaxTok
  by_cases hc : PlateRecognizer.find_plate_contours env
      (PlateRecognizer.preprocess_image env image) image = []
  · simp [hc]
  · rw [if_neg hc]
    have h := foldl_contours_tokSt env image
      (PlateRecognizer.find_plate_contours env
        (PlateRecognizer.preprocess_image env image) image) none
    rw [show ((none, 0, none) : PlateRecognizer.RecSt) = tokSt none from rfl, h]
    cases ((PlateRecognizer.find_plate_contours env
        (PlateRecognizer.preprocess_image env image) image).flatMap fun contour =>
      match PlateRecognizer.extract_plate env image contour with
      | none => []
      | some plate_img =>
        PlateRecognizer.prConfigs.flatMap fun config =>
          (env.image_to_data (PlateRecognizer.enhance_plate_image env plate_img)
            config).filterMap fun row =>
            if 0 < row.2 ∧ pyStrip row.1 ≠ "" then some (row.1, row.2, plate_img)
            else none).foldl tokMerge none with
    | none => rfl
    | some y => rfl

/-- The simple_detector OCR loop consults every configuration when none
of them yields a valid plate. -/
theorem ocrLoop_runs_all (env : CVEnv) (pil : Img) :
    ∀ (configs : List String) (best : String),
      (∀ cfg ∈ configs, simple_detector.is_valid_uk_plate
        (simple_detector.clean_and_format_plate (env.image_to_string pil cfg)) = false) →
      (simple_detector.ocrLoop env pil configs best).2 = configs.length := by
  intro configs
  induction configs with
  | nil => intro best h; rfl
  | cons cfg rest ih =>
    intro best h
    have hv := h cfg (by simp)
    unfold simple_detector.ocrLoop
    simp only [hv, Bool.false_eq_true, if_false, List.length_cons]
    rw [ih _ fun c hc => h c (List.mem_cons_of_mem cfg hc)]

/-! ### Claim C7 -/

/-- C7, counterexample: the simple_detector OCR loop short-circuits — when
the first configuration's text cleans to a valid plate, only 1 of the 3
configurations is submitted to OCR (the loop `break`s), so not every
recognizer variant runs every configuration to completion. -/
theorem c7_counterexample :
    simple_detector.ocrLoop envOcrValid (blackImg 1 1) simple_detector.sdConfigs ""
      = ("AB12 CDE", 1) ∧
    simple_detector.sdConfigs.length = 3 := by
  refine ⟨by decide, by decide⟩

/-- C7 (amended): the uk and plate_recognizer aggregators do run every
configuration: `recognize_plate_number` picks a maximal-confidence pair
from the union of all four configurations' admissible outputs, and
`recognize_plate`'s selected text is exactly the first-seen maximum over
the union of all contours' and all three configurations' admissible
tokens; the simple_detector loop, however, `break`s on the first valid
cleaned text, and consults all of its configurations only when no
configuration yields a valid plate. -/
theorem c7_aggregation_over_all_configs (env : CVEnv)
    (image plate_image plate_pil : Img) :
    (UKPlateRecognizer.rpnPairs env plate_image ≠ [] →
      ∃ q ∈ UKPlateRecognizer.rpnPairs env plate_image,
        UKPlateRecognizer.recognize_plate_number env plate_image = q.1 ∧
        ∀ q2 ∈ UKPlateRecognizer.rpnPairs env plate_image, q2.2 ≤ q.2) ∧
    ((PlateRecognizer.recognize_plate env image).1 =
      Option.map (fun y => PlateRecognizer.format_uk_plate y.1)
        (firstMaxTok (PlateRecognizer.allTokens env image))) ∧
    ((∀ cfg ∈ simple_detector.sdConfigs,
        simple_detector.is_valid_uk_plate
          (simple_detector.clean_and_format_plate
            (env.image_to_string plate_pil cfg)) = false) →
      (simple_detector.ocrLoop env plate_pil simple_detector.sdConfigs "").2 =
        simple_detector.sdConfigs.length) :=
  ⟨rpn_best_over_union env plate_image,
   recognize_plate_fst_eq env image,
   ocrLoop_runs_all env plate_pil simple_detector.sdConfigs ""⟩

/-- C7, witness: with an OCR oracle returning one confident token per
configuration, the uk aggregator's result is a maximal pair over all four
configurations; and with an empty OCR oracle the simple_detector loop
consults all three configurations. -/
theorem c7_witness :
    (∃ q ∈ UKPlateRecognizer.rpnPairs envOcrToken blueImg,
      UKPlateRecognizer.recognize_plate_number envOcrToken blueImg = q.1 ∧
      ∀ q2 ∈ UKPlateRecognizer.rpnPairs envOcrToken blueImg, q2.2 ≤ q.2) ∧
    (simple_detector.ocrLoop idEnv (blackImg 1 1) simple_detector.sdConfigs "").2 =
      simple_detector.sdConfigs.length :=
  ⟨(c7_aggregation_over_all_configs envOcrToken blueImg blueImg blueImg).1
      (by decide),
   (c7_aggregation_over_all_configs idEnv (blackImg 1 1) (blackImg 1 1)
      (blackImg 1 1)).2.2 (by decide)⟩

/-! ### Claim C10 -/

/-- C10: the plate-text normalizer is idempotent — applying
`UKPlateRecognizer.format_uk_plate` (resp. the direct_ocr
`clean_and_format_plate`) twice gives the same result as applying it
once, for every input string. -/
theorem c10_normalize_idempotent (s : String) :
    UKPlateRecognizer.format_uk_plate (UKPlateRecognizer.format_uk_plate s) =
      UKPlateRecognizer.format_uk_plate s ∧
    direct_ocr.clean_and_format_plate (direct_ocr.clean_and_format_plate s) =
      direct_ocr.clean_and_format_plate s :=
  ⟨uk_format_idemAux s, do_format_idemAux s⟩
